import Mathlib

/-!
Verification of the Hospital Corridor AI decision layer.

Shallow embedding of the stateful decision code of the repository
(Backend/app/services/processing.py, event_engine.py, aggression_rules.py,
vehicle_rules.py, Backend/client/tracker/simple_tracker.py and the candidate
construction of Backend/app/db/qdrant_client.py) in Lean 4.

Conventions used throughout:
* Python floats are modelled as rationals.
* Euclidean segment lengths (math.sqrt, math.hypot, np.sqrt) are irrational in
  general.  Where the source compares ONE segment length (or one length/time
  ratio) against a constant, the comparison is encoded exactly by squaring both
  sides, which is equivalent because the square function is strictly monotone
  on nonnegative rationals.  Where the source sums several segment lengths
  (velocity over a window, stationary displacement, clustering averages), the
  segment-length function is abstracted as an explicit parameter d; every
  theorem below holds for all such d.
* Python dicts keyed by track id are modelled as association lists in
  insertion order (Python dicts iterate in insertion order).
-/

namespace HospitalAI

/-- Axis-aligned bounding box (x1, y1, x2, y2) in frame pixel space. -/
structure Box where
  x1 : ℚ
  y1 : ℚ
  x2 : ℚ
  y2 : ℚ
  deriving Repr, DecidableEq

/-- Modelled from the spec: the module client/utils/geometry.py (imported by the
tracker for bbox_center) is absent from the sources; spec section 2 describes it
as plain centroid computation.  Center of a box. -/
def bbox_center (b : Box) : ℚ × ℚ :=
  ((b.x1 + b.x2) / 2, (b.y1 + b.y2) / 2)

/-- Modelled from the spec: the module client/utils/geometry.py (imported by the
tracker for iou) is absent from the sources; spec section 2 describes it as plain
bounding-box overlap (intersection over union), a pure function.  Zero when the
boxes do not overlap or the union is degenerate. -/
def iou (a b : Box) : ℚ :=
  let ix1 := max a.x1 b.x1
  let iy1 := max a.y1 b.y1
  let ix2 := min a.x2 b.x2
  let iy2 := min a.y2 b.y2
  let iw := max 0 (ix2 - ix1)
  let ih := max 0 (iy2 - iy1)
  let inter := iw * ih
  let areaA := (a.x2 - a.x1) * (a.y2 - a.y1)
  let areaB := (b.x2 - b.x1) * (b.y2 - b.y1)
  let union := areaA + areaB - inter
  if union ≤ 0 then 0 else inter / union

/-- Squared Euclidean distance between two points; used to encode single
distance comparisons of the source exactly (see the file header). -/
def distSq (p q : ℚ × ℚ) : ℚ :=
  (p.1 - q.1) ^ 2 + (p.2 - q.2) ^ 2

/- ===================================================================
   SECTION 1: Hybrid authorization
   Backend/app/services/processing.py lines 79-148 and the candidate
   records built by Backend/app/db/qdrant_client.py lines 188-199.
   =================================================================== -/

/-- processing.py line 79. -/
def ARCFACE_AUTH_THRESHOLD : ℚ := 0.55

/-- processing.py line 80. -/
def CLIP_AUTH_THRESHOLD : ℚ := 0.90

/-- One candidate returned by search_staff_hybrid
(qdrant_client.py lines 188-197).  The name/role/department fields come from
payload.get and may be None; the authorized field is
payload.get("authorized", True) reduced to its truthiness. -/
structure Candidate where
  staff_id : Option String
  name : Option String
  role : Option String
  department : Option String
  clip_score : ℚ
  arcface_score : ℚ
  authorized : Bool
  deriving Repr, DecidableEq

/-- Candidate construction from a stored payload,
qdrant_client.py lines 188-197: the authorized flag defaults to True when the
payload lacks the key. -/
def mkCandidate (staff_id name role department : Option String)
    (clip_score arcface_score : ℚ) (payload_authorized : Option Bool) : Candidate :=
  { staff_id := staff_id, name := name, role := role, department := department,
    clip_score := clip_score, arcface_score := arcface_score,
    authorized := payload_authorized.getD true }

/-- The record returned by authorize_person_hybrid.  Its five fields mirror the
keys of the three dict literals of processing.py lines 90-96, 134-140, 142-148. -/
structure AuthResult where
  authorized : Bool
  score : ℚ
  name : Option String
  role : Option String
  department : Option String
  deriving Repr, DecidableEq

/-- The keys of the dict literals returned by authorize_person_hybrid
(processing.py lines 90-96, 134-140 and 142-148); all three return the same
key set. -/
def authResultKeys : List String :=
  ["authorized", "score", "name", "role", "department"]

/-- authorize_person_hybrid, processing.py lines 82-148, with the external
similarity store abstracted: the argument results stands for the value of
search_staff_hybrid(clip_embedding, arcface_embedding, limit=5), and hasArcface
for arcface_embedding is not None.  The returned name and role use the dead
defaults of top.get("name", "Staff") and top.get("role", "Employee") only when
the key is missing, which never happens for candidates built by
search_staff_hybrid, so they reduce to the stored payload values. -/
def authorize_person_hybrid (hasArcface : Bool) (results : List Candidate) : AuthResult :=
  match results with
  | [] =>
    { authorized := false, score := 0, name := some "Unauthorized",
      role := none, department := none }
  | top :: _ =>
    let arcface_score := top.arcface_score
    let clip_score := top.clip_score
    -- is_authorized = False; final_score = clip_score (lines 103-104), then the
    -- strict authorization logic of lines 112-125.
    let step : Bool × ℚ :=
      if hasArcface = true ∧ 0 < arcface_score then
        if ARCFACE_AUTH_THRESHOLD ≤ arcface_score ∧ (0.75 : ℚ) ≤ clip_score then
          (true, arcface_score)
        else (false, clip_score)
      else
        if CLIP_AUTH_THRESHOLD ≤ clip_score then (true, clip_score)
        else (false, clip_score)
    if step.1 ∧ top.authorized then
      { authorized := true, score := step.2, name := some (top.name.getD "Staff"),
        role := some (top.role.getD "Employee"),
        department := some (top.department.getD "Hospital") }
    else
      { authorized := false, score := step.2, name := some "Unauthorized",
        role := none, department := none }

/-- The internal match_method variable of authorize_person_hybrid
(processing.py lines 105, 119, 125).  It is only interpolated into a debug log
line (lines 130-131); it does not appear in the returned record. -/
def match_method (hasArcface : Bool) (results : List Candidate) : String :=
  match results with
  | [] => "none"
  | top :: _ =>
    if hasArcface = true ∧ 0 < top.arcface_score then
      if ARCFACE_AUTH_THRESHOLD ≤ top.arcface_score ∧ (0.75 : ℚ) ≤ top.clip_score then
        "arcface"
      else "none"
    else
      if CLIP_AUTH_THRESHOLD ≤ top.clip_score then "clip" else "none"

/-- Convenience candidate with every string field populated. -/
def testCandidate (clip arc : ℚ) (flag : Bool) : Candidate :=
  { staff_id := some "s1", name := some "Alice", role := some "Nurse",
    department := some "ER", clip_score := clip, arcface_score := arc,
    authorized := flag }

/-- A top candidate with a positive coarse score and a zero precise score,
used to refute claim C1 as stated. -/
def c1Cex : Candidate := testCandidate 0.95 0 true

/-- The scenario candidate of claim C2 with precise 0.60 and coarse 0.92. -/
def c2Pass : Candidate := testCandidate 0.92 0.60 true

/-- The scenario candidate of claim C2 with precise 0.60 and coarse 0.70. -/
def c2Floor : Candidate := testCandidate 0.70 0.60 true

/- ===================================================================
   SECTION 2: Vehicle rule engine
   Backend/app/services/vehicle_rules.py lines 10-176.
   =================================================================== -/

/-- vehicle_rules.py lines 10-17. -/
def VEHICLE_CLASSES : List (ℕ × String) :=
  [(1, "bicycle"), (2, "car"), (3, "motorcycle"), (5, "bus"), (7, "truck"), (9, "ambulance")]

/-- vehicle_rules.py lines 28-29. -/
def get_vehicle_type (class_id : ℕ) : String :=
  (VEHICLE_CLASSES.lookup class_id).getD "unknown"

/-- vehicle_rules.py line 22. -/
def RESTRICTED_ZONES : List String := ["corridor", "ward"]

/-- vehicle_rules.py lines 32-47: coarse positional zone heuristic. -/
def infer_zone_from_position (bbox : Box) (h w : ℚ) : String :=
  let cx := (bbox.x1 + bbox.x2) / 2
  let cy := (bbox.y1 + bbox.y2) / 2
  if cy < h * 0.5 then "corridor"
  else if cx < w * 0.5 then "parking"
  else "emergency"

/-- The comparison estimate_speed(track) > limit, vehicle_rules.py lines 50-70
used at line 149.  With fewer than two history samples the speed is 0.0; else
the speed is the Euclidean center displacement of the last two samples divided
by dt = max(t2 - t1, 0.01), and the comparison against the nonnegative limit is
encoded exactly by squaring (see the file header).  History entries are the
(x1, y1, x2, y2, t) tuples the function unpacks. -/
def estimate_speed_gt (history : List (Box × ℚ)) (limit : ℚ) : Bool :=
  match history.reverse with
  | last :: prev :: _ =>
    let cx1 := (prev.1.x1 + prev.1.x2) / 2
    let cy1 := (prev.1.y1 + prev.1.y2) / 2
    let cx2 := (last.1.x1 + last.1.x2) / 2
    let cy2 := (last.1.y1 + last.1.y2) / 2
    let dt := max (last.2 - prev.2) 0.01
    if limit < 0 then true
    else decide ((limit * dt) ^ 2 < (cx2 - cx1) ^ 2 + (cy2 - cy1) ^ 2)
  | _ => decide (limit < 0)

/-- The vehicle dict handed to evaluate_vehicle_rules
(processing.py lines 728-735). -/
structure Vehicle where
  class_id : ℕ
  conf : ℚ
  bbox : Option Box
  id : ℕ
  history : List (Box × ℚ)
  deriving Repr, DecidableEq

/-- The events emitted by evaluate_vehicle_rules, one constructor per dict
literal (vehicle_rules.py lines 105-174), keeping the type-determining
payload fields. -/
inductive VEvent where
  | restricted (vehicle_type zone : String)
  | heavy (vehicle_type : String)
  | parking
  | overspeed (zone : String)
  | detected (vehicle_type zone : String)
  deriving Repr, DecidableEq

/-- The severity field of each event dict (vehicle_rules.py lines 107, 122,
137, 152, 167). -/
def VEvent.severity : VEvent → String
  | .restricted _ _ => "warning"
  | .heavy _ => "critical"
  | .parking => "warning"
  | .overspeed _ => "critical"
  | .detected _ _ => "info"

/-- evaluate_vehicle_rules, vehicle_rules.py lines 76-176: weak detections
(conf < 0.5) or missing boxes are ignored; rules 1-4 each append their event
independently; if no rule fired, a single info-severity VEHICLE_DETECTED
event is emitted. -/
def evaluate_vehicle_rules (v : Vehicle) (frame_h frame_w : ℚ) : List VEvent :=
  match v.bbox with
  | none => []
  | some bbox =>
    if v.conf < 0.5 then [] else
    let vehicle_type := get_vehicle_type v.class_id
    let zone := infer_zone_from_position bbox frame_h frame_w
    let events1 :=
      if zone ∈ RESTRICTED_ZONES ∧ ¬(vehicle_type = "ambulance" ∧ zone = "emergency")
      then [VEvent.restricted vehicle_type zone] else []
    let events2 := events1 ++
      (if (vehicle_type = "bus" ∨ vehicle_type = "truck") ∧ zone = "corridor"
       then [VEvent.heavy vehicle_type] else [])
    let events3 := events2 ++
      (if vehicle_type = "car" ∧ zone = "corridor" then [VEvent.parking] else [])
    let events4 := events3 ++
      (if estimate_speed_gt v.history 120 = true ∧ zone = "corridor"
       then [VEvent.overspeed zone] else [])
    if events4 = [] then [VEvent.detected vehicle_type zone] else events4

/-- A speeding truck in the corridor: three rules fire in one evaluation. -/
def c9Truck : Vehicle :=
  { class_id := 7, conf := 0.9, bbox := some ⟨0,0,100,100⟩, id := 1,
    history := [(⟨0,0,10,10⟩, 0), (⟨400,0,410,10⟩, 1)] }

/-- A slow bicycle in the parking zone: no rule fires. -/
def c9Bike : Vehicle :=
  { class_id := 1, conf := 0.9, bbox := some ⟨0,600,10,610⟩, id := 2, history := [] }

/- ===================================================================
   SECTION 3: Aggression rules and the event-engine aggression path
   Backend/app/services/aggression_rules.py and
   Backend/app/services/event_engine.py lines 110-123 and 362-393.
   =================================================================== -/

/-- A timestamped point (x, y, t), the shape of position and wrist-history
entries throughout event_engine.py. -/
structure Sample where
  x : ℚ
  y : ℚ
  t : ℚ
  deriving Repr, DecidableEq

/-- One pose landmark with a visibility score (pose_detector output). -/
structure Landmark where
  x : ℚ
  y : ℚ
  visibility : ℚ
  deriving Repr, DecidableEq

/-- A pose as consumed by the event engine: a list of landmarks. -/
structure Pose where
  landmarks : List Landmark
  deriving Repr, DecidableEq

/-- The behavior events produced by the event engine, one constructor per dict
literal (event_engine.py lines 225-232, 237-244, 264-272, 286-292 and
aggression_rules.py lines 96-104, 108-115), keeping the type-determining
payload fields. -/
inductive Event where
  | loitering (track_id : String) (duration : ℚ)
  | running (track_id : String) (velocity : ℚ)
  | crowd (person_count : ℕ) (is_clustered : Bool) (severity : String)
  | fall (bbox : Box)
  | fight (track_id : String) (people_involved : ℕ)
  | aggressive (track_id : String)
  deriving Repr, DecidableEq

/-- aggression_rules.py line 13. -/
def ARM_SPEED_THRESHOLD : ℚ := 110

/-- aggression_rules.py line 14. -/
def CLOSE_DISTANCE : ℚ := 150

/-- aggression_rules.py line 15. -/
def MIN_DURATION : ℚ := 0.5

/-- aggression_rules.py line 16. -/
def MIN_HITS : ℕ := 15

/-- event_engine.py line 138. -/
def POSE_CONFIDENCE_THRESHOLD : ℚ := 0.4

/-- The comparison wrist_speed(history) < c, aggression_rules.py lines 26-38:
speed is 0.0 with fewer than two samples, else the Euclidean displacement of
the last two samples divided by dt = max(t2 - t1, 0.01); the comparison is
encoded exactly by squaring (see the file header; speed is nonnegative, so
c ≤ 0 makes it false). -/
def wrist_speed_lt (history : List Sample) (c : ℚ) : Bool :=
  match history.reverse with
  | p2 :: p1 :: _ =>
    let dt := max (p2.t - p1.t) 0.01
    if c ≤ 0 then false
    else decide ((p2.x - p1.x) ^ 2 + (p2.y - p1.y) ^ 2 < (c * dt) ^ 2)
  | _ => decide ((0:ℚ) < c)

/-- The comparison wrist_speed(history) > c, same encoding as wrist_speed_lt. -/
def wrist_speed_gt (history : List Sample) (c : ℚ) : Bool :=
  match history.reverse with
  | p2 :: p1 :: _ =>
    let dt := max (p2.t - p1.t) 0.01
    if c < 0 then true
    else decide ((c * dt) ^ 2 < (p2.x - p1.x) ^ 2 + (p2.y - p1.y) ^ 2)
  | _ => decide (c < 0)

/-- The comparison distance(p, q) < c (aggression_rules.py lines 22-23 used at
line 83), squared encoding as in the file header. -/
def dist_lt (p q : ℚ × ℚ) (c : ℚ) : Bool :=
  if c ≤ 0 then false else decide (distSq p q < c ^ 2)

/-- The track dict received by evaluate_aggression.  It is built by
PersonTracker.to_dict (event_engine.py lines 110-123); aggr_hits and
aggr_start model the two keys evaluate_aggression itself writes onto the dict
(aggression_rules.py lines 61-69), with aggr_hits = 0 encoding the absent key
(the code reads it with track.get("aggr_hits", 0) and never stores 0). -/
structure AggrTrack where
  id : String
  position : Sample
  center : ℚ × ℚ
  velocity : ℚ
  bbox : Option Box
  left_wrist_history : List Sample
  right_wrist_history : List Sample
  first_seen : ℚ
  last_seen : ℚ
  aggr_hits : ℕ
  aggr_start : Option ℚ
  deriving Repr, DecidableEq

/-- evaluate_aggression, aggression_rules.py lines 44-117.  The first component
is the returned event (or none); the second is the track dict after the
mutations the function performs on it (counter reset on a slow frame, counter
increment and window start on a fast one).  speed = max(l_speed, r_speed), so
speed < threshold holds exactly when both wrist speeds are below it, and the
nearby o_speed > 0.7 * threshold holds when either wrist exceeds it. -/
def evaluate_aggression (track : AggrTrack) (nearby_tracks : List AggrTrack) (now : ℚ) :
    Option Event × AggrTrack :=
  if wrist_speed_lt track.left_wrist_history ARM_SPEED_THRESHOLD
      && wrist_speed_lt track.right_wrist_history ARM_SPEED_THRESHOLD then
    (none, { track with aggr_hits := 0, aggr_start := none })
  else
    let hits := track.aggr_hits + 1
    let start := track.aggr_start.getD now
    let track1 := { track with aggr_hits := hits, aggr_start := some start }
    if hits < MIN_HITS then (none, track1)
    else
      let active_nearby_count := (nearby_tracks.filter (fun other =>
        dist_lt track.center other.center CLOSE_DISTANCE
          && (wrist_speed_gt other.left_wrist_history (ARM_SPEED_THRESHOLD * 0.7)
              || wrist_speed_gt other.right_wrist_history (ARM_SPEED_THRESHOLD * 0.7)))).length
      if 1 ≤ active_nearby_count then
        (some (Event.fight track.id (active_nearby_count + 1)), track1)
      else if MIN_DURATION ≤ now - start then
        (some (Event.aggressive track.id), track1)
      else (none, track1)

/-- PersonTracker state, event_engine.py lines 16-28. -/
structure PersonTracker where
  track_id : String
  positions : List Sample
  left_wrist_history : List Sample
  right_wrist_history : List Sample
  first_seen : ℚ
  last_seen : ℚ
  is_stationary : Bool
  velocity : ℚ
  current_bbox : Option Box
  deriving Repr, DecidableEq

/-- PersonTracker.to_dict, event_engine.py lines 110-123.  The dict carries
id, position, center, velocity, bbox, the wrist histories, first_seen and
last_seen — and no aggr_hits or aggr_start key, so every dict handed to
evaluate_aggression starts with the absent counter. -/
def PersonTracker.to_dict (tr : PersonTracker) : AggrTrack :=
  let pos := (tr.positions.getLast?).getD ⟨0, 0, 0⟩
  { id := tr.track_id, position := pos, center := (pos.x, pos.y),
    velocity := tr.velocity, bbox := tr.current_bbox,
    left_wrist_history := tr.left_wrist_history,
    right_wrist_history := tr.right_wrist_history,
    first_seen := tr.first_seen, last_seen := tr.last_seen,
    aggr_hits := 0, aggr_start := none }

/-- Association-list lookup for the pose-history dict (keys are track ids,
values the per-track lists of pose entries; only the pose field of each entry
is read by the aggression gate, so entries are Option Pose). -/
def lookupEntries (l : List (String × List (Option Pose))) (tid : String) :
    Option (List (Option Pose)) :=
  match l with
  | [] => none
  | (k, v) :: rest => if k = tid then some v else lookupEntries rest tid

/-- Mean keypoint visibility of a pose (event_engine.py lines 378-379). -/
def mean_visibility (p : Pose) : ℚ :=
  ((p.landmarks.map (fun l => l.visibility)).sum) / (p.landmarks.length : ℚ)

/-- The pose-reliability gate of EventEngine._detect_aggression
(event_engine.py lines 372-383): the track has pose history, the latest entry
has a pose with nonempty landmarks, and the mean visibility exceeds 0.4. -/
def pose_reliable (pose_hist : List (String × List (Option Pose))) (tid : String) : Bool :=
  match lookupEntries pose_hist tid with
  | none => false
  | some entries =>
    match entries.getLast? with
    | some (some p) =>
      (p.landmarks ≠ ([] : List Landmark))
        && decide (POSE_CONFIDENCE_THRESHOLD < mean_visibility p)
    | _ => false

/-- EventEngine._detect_aggression, event_engine.py lines 362-393: converts
every tracker with to_dict, then for each pose-reliable converted track runs
evaluate_aggression against the other converted tracks and collects the
returned events. -/
def detect_aggression (pose_hist : List (String × List (Option Pose)))
    (trackers : List PersonTracker) (now : ℚ) : List Event :=
  let tracks := trackers.map PersonTracker.to_dict
  tracks.foldl (fun events track =>
    if pose_reliable pose_hist track.id then
      let nearby := tracks.filter (fun t => t.id ≠ track.id)
      match (evaluate_aggression track nearby now).1 with
      | some e => events ++ [e]
      | none => events
    else events) []

/-- A wrist history moving 200 px in one second: speed 200 px/s, above the
110 px/s arm-speed threshold. -/
def fastHistory : List Sample := [⟨0, 0, 0⟩, ⟨200, 0, 1⟩]

/-- A track whose left wrist is consistently fast, with the absent counter. -/
def fastTrack : AggrTrack :=
  { id := "a", position := ⟨0, 0, 0⟩, center := (0, 0), velocity := 0, bbox := none,
    left_wrist_history := fastHistory, right_wrist_history := [],
    first_seen := 0, last_seen := 0, aggr_hits := 0, aggr_start := none }

/-- Iterated evaluate_aggression with the track state threaded from call to
call (the persisted-counter semantics the spec describes): step n + 1 runs at
time n + 1 on the state left by step n, with no nearby tracks. -/
def threadAggr : ℕ → Option Event × AggrTrack
  | 0 => (none, fastTrack)
  | n + 1 => evaluate_aggression (threadAggr n).2 [] ((n : ℚ) + 1)

/-- A slow track (wrist speed 1 px/s) with seven accumulated hits. -/
def slowTrack : AggrTrack :=
  { fastTrack with left_wrist_history := [⟨0, 0, 0⟩, ⟨1, 0, 1⟩],
                   aggr_hits := 7, aggr_start := some 1 }

/- ===================================================================
   SECTION 4: EventEngine.analyze_frame and the alert relays
   Backend/app/services/event_engine.py lines 126-411 and
   Backend/app/services/processing.py lines 62, 740-752, 760-811.
   =================================================================== -/

/-- event_engine.py line 133. -/
def LOITERING_THRESHOLD_SECS : ℚ := 300

/-- event_engine.py line 134. -/
def RUNNING_VELOCITY_THRESHOLD : ℚ := 200

/-- event_engine.py line 135. -/
def CROWD_PERSON_THRESHOLD : ℕ := 3

/-- event_engine.py line 136. -/
def CROWD_DISTANCE_THRESHOLD : ℚ := 150

/-- event_engine.py line 137. -/
def FALL_VERTICAL_RATIO_THRESHOLD : ℚ := 0.5

/-- event_engine.py line 141. -/
def CROWD_ALERT_COOLDOWN : ℚ := 60

/-- processing.py line 62. -/
def ALERT_COOLDOWN_VEHICLE : ℚ := 60

/-- The last n elements of a list (Python slicing l[-n:]). -/
def lastN {α : Type} (n : ℕ) (l : List α) : List α := l.drop (l.length - n)

/-- The metric parameter: stands for the Euclidean segment length
math.sqrt((x2-x1)^2 + (y2-y1)^2) wherever the source sums several segment
lengths (see the file header).  All engine theorems hold for every d. -/
abbrev Metric : Type := ℚ × ℚ → ℚ × ℚ → ℚ

/-- Total length of the polyline through the given samples under d
(the summation loops of event_engine.py lines 74-78 and 97-101). -/
def pathLen (d : Metric) : List Sample → ℚ
  | a :: b :: rest => d (a.x, a.y) (b.x, b.y) + pathLen d (b :: rest)
  | _ => 0

/-- PersonTracker._calculate_velocity, event_engine.py lines 63-84: distance
over the last five samples divided by their time span (0 when the span is not
positive; the early return at line 72 keeps the stored velocity and is
unreachable from update, which calls this only with at least two positions). -/
def calculate_velocity (d : Metric) (tr : PersonTracker) : ℚ :=
  if tr.positions.length < 2 then 0
  else
    let recent := lastN 5 tr.positions
    if recent.length < 2 then tr.velocity
    else
      let total_distance := pathLen d recent
      let time_span := ((recent.getLast?).getD ⟨0, 0, 0⟩).t - ((recent.head?).getD ⟨0, 0, 0⟩).t
      if 0 < time_span then total_distance / time_span else 0

/-- PersonTracker.update, event_engine.py lines 30-61: append the position,
refresh last_seen and the box, append visible wrist samples when a pose with
more than 16 landmarks is given, cap the three histories at 30 samples, then
recompute the velocity when at least two positions remain. -/
def PersonTracker.update (d : Metric) (tr : PersonTracker) (position : ℚ × ℚ)
    (timestamp : ℚ) (bbox : Option Box) (pose : Option Pose) : PersonTracker :=
  let positions1 := tr.positions ++ [⟨position.1, position.2, timestamp⟩]
  let bbox1 := match bbox with
    | some b => some b
    | none => tr.current_bbox
  let wrists : List Sample × List Sample := match pose with
    | some p =>
      if 16 < p.landmarks.length then
        let lw := p.landmarks.getD 15 (⟨0, 0, 0⟩ : Landmark)
        let rw := p.landmarks.getD 16 (⟨0, 0, 0⟩ : Landmark)
        (if 0.3 < lw.visibility
          then tr.left_wrist_history ++ [⟨lw.x, lw.y, timestamp⟩]
          else tr.left_wrist_history,
         if 0.3 < rw.visibility
          then tr.right_wrist_history ++ [⟨rw.x, rw.y, timestamp⟩]
          else tr.right_wrist_history)
      else (tr.left_wrist_history, tr.right_wrist_history)
    | none => (tr.left_wrist_history, tr.right_wrist_history)
  let positions2 := if 30 < positions1.length then lastN 30 positions1 else positions1
  let lw2 := if 30 < wrists.1.length then lastN 30 wrists.1 else wrists.1
  let rw2 := if 30 < wrists.2.length then lastN 30 wrists.2 else wrists.2
  let tr1 := { tr with positions := positions2, last_seen := timestamp,
                       current_bbox := bbox1,
                       left_wrist_history := lw2, right_wrist_history := rw2 }
  if 2 ≤ positions2.length then { tr1 with velocity := calculate_velocity d tr1 } else tr1

/-- PersonTracker.get_stationary_time, event_engine.py lines 86-108: zero with
fewer than two positions; else, when the movement over the last ten samples is
below 30 px, the whole observed span last_seen - first_seen, and zero
otherwise. -/
def get_stationary_time (d : Metric) (tr : PersonTracker) : ℚ :=
  if tr.positions.length < 2 then 0
  else
    let recent := lastN 10 tr.positions
    if recent.length < 2 then 0
    else
      let total_movement := pathLen d recent
      if total_movement < 30 then tr.last_seen - tr.first_seen else 0

/-- One detection as handed to analyze_frame by _analyze_behaviors
(processing.py lines 767-774): bounding box, the track id assigned by the
upstream tracker, and the pose extracted for this detection (the source passes
poses as a parallel list indexed like the detections; it is modelled as a
field). -/
structure Det where
  bbox : Option Box
  track_id : Option String
  pose : Option Pose
  deriving Repr, DecidableEq

/-- The mutable state of the EventEngine singleton
(event_engine.py lines 143-148). -/
structure EngineState where
  trackers : List (String × PersonTracker)
  pose_hist : List (String × List (Option Pose))
  last_cleanup : ℚ
  last_crowd_alert_time : ℚ
  deriving Repr, DecidableEq

/-- Key membership in an association list. -/
def hasKey {β : Type} (l : List (String × β)) (tid : String) : Bool :=
  l.any (fun kv => kv.1 == tid)

/-- Update every entry with the given key (keys are unique in practice). -/
def updateAt {β : Type} (l : List (String × β)) (tid : String) (f : β → β) :
    List (String × β) :=
  l.map (fun kv => if kv.1 = tid then (kv.1, f kv.2) else kv)

/-- A fresh PersonTracker, event_engine.py lines 19-28, with the current_bbox
assignment that follows construction at lines 199 and 324. -/
def newTracker (tid : String) (cx cy now : ℚ) (bbox : Option Box) : PersonTracker :=
  { track_id := tid, positions := [⟨cx, cy, now⟩],
    left_wrist_history := [], right_wrist_history := [],
    first_seen := now, last_seen := now,
    is_stationary := false, velocity := 0, current_bbox := bbox }

/-- The nearest-tracker search of EventEngine._find_or_create_tracker,
event_engine.py lines 304-315: among trackers updated less than 1 s ago, the
one nearest to (x, y) within 100 px, with the running minimum and the 100 px
bound compared squared (see the file header). -/
def closest_tracker (trackers : List (String × PersonTracker)) (x y timestamp : ℚ) :
    Option (String × ℚ) :=
  trackers.foldl (fun acc kv =>
    match (kv.2.positions.getLast?) with
    | none => acc
    | some last =>
      if timestamp - last.t < 1 then
        let dsq := distSq (x, y) (last.x, last.y)
        let cond : Bool := (match acc with
          | none => true
          | some prev => decide (dsq < prev.2)) && decide (dsq < 100 ^ 2)
        if cond then some (kv.1, dsq) else acc
      else acc) (none : Option (String × ℚ))

/-- EventEngine._find_or_create_tracker, event_engine.py lines 302-325 (the
running-minimum search is closest_tracker above): update the closest recent
tracker without a pose, or create a tracker whose id embeds the timestamp in
milliseconds (int() truncation; timestamps are nonnegative). -/
def find_or_create_tracker (d : Metric) (trackers : List (String × PersonTracker))
    (x y timestamp : ℚ) (bbox : Option Box) : String × List (String × PersonTracker) :=
  match closest_tracker trackers x y timestamp with
  | some closest =>
    (closest.1, updateAt trackers closest.1
      (fun tr => tr.update d (x, y) timestamp bbox none))
  | none =>
    let new_id := "person_" ++ toString (Int.floor (timestamp * 1000))
    (new_id, trackers ++ [(new_id, newTracker new_id x y timestamp bbox)])

/-- Append one pose entry for a track and cap the list at 30
(event_engine.py lines 207-216; the pose_history is a defaultdict). -/
def appendPose (ph : List (String × List (Option Pose))) (tid : String)
    (p : Option Pose) : List (String × List (Option Pose)) :=
  if hasKey ph tid then
    updateAt ph tid (fun l =>
      let l1 := l ++ [p]
      if 30 < l1.length then lastN 30 l1 else l1)
  else ph ++ [(tid, [p])]

/-- The per-detection tracker-update loop of analyze_frame
(event_engine.py lines 177-216), folded over the detections: skip boxless
detections; an external track id updates or registers the tracker under that
id, otherwise the internal fallback runs; the pose entry is appended and the
id collected as active. -/
def ingest_step (d : Metric) (now : ℚ)
    (acc : List (String × PersonTracker) × List (String × List (Option Pose)) × List String)
    (det : Det) :
    List (String × PersonTracker) × List (String × List (Option Pose)) × List String :=
  match det.bbox with
  | none => acc
  | some bbox =>
    let cx := (bbox.x1 + bbox.x2) / 2
    let cy := (bbox.y1 + bbox.y2) / 2
    let step : String × List (String × PersonTracker) :=
      match det.track_id with
      | some ext =>
        if hasKey acc.1 ext then
          (ext, updateAt acc.1 ext
            (fun tr => tr.update d (cx, cy) now (some bbox) det.pose))
        else
          (ext, acc.1 ++ [(ext, newTracker ext cx cy now (some bbox))])
      | none => find_or_create_tracker d acc.1 cx cy now (some bbox)
    (step.2, appendPose acc.2.1 step.1 det.pose, acc.2.2 ++ [step.1])

/-- The full tracker-update loop folded over the detections. -/
def ingest (d : Metric) (trackers : List (String × PersonTracker))
    (ph : List (String × List (Option Pose))) (dets : List Det) (now : ℚ) :
    List (String × PersonTracker) × List (String × List (Option Pose)) × List String :=
  dets.foldl (ingest_step d now) (trackers, ph, [])

/-- Collect the events produced by a per-item rule (the append-if loops of
analyze_frame). -/
def collect {α : Type} (f : α → Option Event) (l : List α) : List Event :=
  l.foldl (fun acc x =>
    match f x with
    | some e => acc ++ [e]
    | none => acc) []

/-- The loitering rule body, event_engine.py lines 219-232. -/
def loiter_check (d : Metric) (active : List String) (kv : String × PersonTracker) :
    Option Event :=
  if kv.1 ∈ active then
    let stationary_time := get_stationary_time d kv.2
    if LOITERING_THRESHOLD_SECS ≤ stationary_time then
      if LOITERING_THRESHOLD_SECS ≤ kv.2.last_seen - kv.2.first_seen then
        some (Event.loitering kv.1 stationary_time)
      else none
    else none
  else none

/-- The running rule body, event_engine.py lines 235-244. -/
def run_check (active : List String) (kv : String × PersonTracker) : Option Event :=
  if kv.1 ∈ active ∧ RUNNING_VELOCITY_THRESHOLD < kv.2.velocity then
    some (Event.running kv.1 kv.2.velocity)
  else none

/-- The fall rule body, event_engine.py lines 277-292. -/
def fall_check (det : Det) : Option Event :=
  match det.bbox with
  | some b =>
    let width := b.x2 - b.x1
    let height := b.y2 - b.y1
    if 0 < width ∧ height / width < FALL_VERTICAL_RATIO_THRESHOLD then
      some (Event.fall b)
    else none
  | none => none

/-- Sum of all pairwise distances under d (the double loop of
event_engine.py lines 347-354). -/
def pairSum (d : Metric) : List (ℚ × ℚ) → ℚ
  | [] => 0
  | c :: rest => ((rest.map (fun q => d c q)).sum) + pairSum d rest

/-- EventEngine._detect_clustering, event_engine.py lines 339-360: mean
pairwise centroid distance below 150 px, false below the crowd threshold. -/
def detect_clustering (d : Metric) (centers : List (ℚ × ℚ)) : Bool :=
  if centers.length < CROWD_PERSON_THRESHOLD then false
  else
    let count : ℕ := centers.length * (centers.length - 1) / 2
    if 0 < count then
      decide (pairSum d centers / (count : ℚ) < CROWD_DISTANCE_THRESHOLD)
    else false

/-- The centers of the boxed detections (event_engine.py lines 252-256). -/
def crowdCenters (dets : List Det) : List (ℚ × ℚ) :=
  dets.foldl (fun cs det =>
    match det.bbox with
    | some b => cs ++ [((b.x1 + b.x2) / 2, (b.y1 + b.y2) / 2)]
    | none => cs) []

/-- The is_clustered flag of the crowd block (event_engine.py line 258). -/
def crowdClustered (d : Metric) (dets : List Det) : Bool :=
  if 2 ≤ (crowdCenters dets).length then detect_clustering d (crowdCenters dets) else false

/-- The severity of the crowd event (event_engine.py line 261). -/
def crowdSeverity (dets : List Det) : String :=
  if 5 ≤ dets.length then "high" else "warning"

/-- The crowd block of analyze_frame, event_engine.py lines 246-274: with at
least 3 detections and the 60 s global cooldown elapsed, emit one crowd event
(severity high from 5 people, clustered when the centers cluster) and move the
cooldown stamp to now. -/
def crowd_step (d : Metric) (last_crowd : ℚ) (dets : List Det) (now : ℚ) :
    List Event × ℚ :=
  let person_count := dets.length
  if CROWD_PERSON_THRESHOLD ≤ person_count then
    if CROWD_ALERT_COOLDOWN ≤ now - last_crowd then
      ([Event.crowd person_count (crowdClustered d dets) (crowdSeverity dets)], now)
    else ([], last_crowd)
  else ([], last_crowd)

/-- EventEngine._cleanup_old_trackers, event_engine.py lines 327-337, together
with its 10 s trigger at lines 172-174: drop trackers stale for more than 30 s
and their pose histories. -/
def cleanup_step (st : EngineState) (now : ℚ) : EngineState :=
  if 10 < now - st.last_cleanup then
    let removed := (st.trackers.filter (fun kv => 30 < now - kv.2.last_seen)).map
      (fun kv => kv.1)
    { st with
      trackers := st.trackers.filter (fun kv => ¬ (30 < now - kv.2.last_seen)),
      pose_hist := st.pose_hist.filter (fun kv => kv.1 ∉ removed),
      last_cleanup := now }
  else st

/-- EventEngine.analyze_frame, event_engine.py lines 150-300: periodic
cleanup, tracker updates for each detection, then the five rule blocks in
source order (loitering, running, crowd, fall, aggression). -/
def analyze_frame (d : Metric) (st : EngineState) (dets : List Det) (now : ℚ) :
    List Event × EngineState :=
  let st1 := cleanup_step st now
  let upd := ingest d st1.trackers st1.pose_hist dets now
  let trackers1 := upd.1
  let pose1 := upd.2.1
  let active := upd.2.2
  let loiterEvents := collect (loiter_check d active) trackers1
  let runEvents := collect (run_check active) trackers1
  let crowdRes := crowd_step d st1.last_crowd_alert_time dets now
  let fallEvents := collect fall_check dets
  let active_trackers := (trackers1.filter (fun kv => kv.1 ∈ active)).map (fun kv => kv.2)
  let aggrEvents :=
    if 2 ≤ active_trackers.length then detect_aggression pose1 active_trackers now else []
  (loiterEvents ++ runEvents ++ crowdRes.1 ++ fallEvents ++ aggrEvents,
   { trackers := trackers1, pose_hist := pose1,
     last_cleanup := st1.last_cleanup, last_crowd_alert_time := crowdRes.2 })

/-- ProcessingService._analyze_behaviors, processing.py lines 760-811: runs
the engine on the tracked persons and forwards every returned event to
_generate_behavior_alert unconditionally — there is no cooldown check at this
call site, so the emitted behavior alerts are exactly the engine events. -/
def analyze_behaviors (d : Metric) (st : EngineState) (dets : List Det) (now : ℚ) :
    List Event × EngineState :=
  analyze_frame d st dets now

/-- Association-list lookup for the vehicle cooldown map. -/
def lookupCd (l : List ((ℕ × String) × ℚ)) (k : ℕ × String) : Option ℚ :=
  match l with
  | [] => none
  | (k2, v) :: rest => if k2 = k then some v else lookupCd rest k

/-- Set a key in the vehicle cooldown map (replace or append). -/
def setCd (l : List ((ℕ × String) × ℚ)) (k : ℕ × String) (v : ℚ) :
    List ((ℕ × String) × ℚ) :=
  match l with
  | [] => [(k, v)]
  | (k2, v2) :: rest => if k2 = k then (k2, v) :: rest else (k2, v2) :: setCd rest k v

/-- The per-(vehicle id, event type) cooldown gate of
ProcessingService._process_vehicles, processing.py lines 740-752: the alert
fires only when at least 60 s have passed since the last alert with the same
key (0 when the key is absent), and firing stamps the key with now. -/
def vehicle_alert_gate (cooldowns : List ((ℕ × String) × ℚ)) (vehicle_id : ℕ)
    (event_type : String) (now : ℚ) : Bool × List ((ℕ × String) × ℚ) :=
  let last_alert := (lookupCd cooldowns (vehicle_id, event_type)).getD 0
  if ALERT_COOLDOWN_VEHICLE ≤ now - last_alert then
    (true, setCd cooldowns (vehicle_id, event_type) now)
  else (false, cooldowns)

/-- A fallen-person detection: box 100 px wide and 40 px tall, aspect ratio
0.4 below the 0.5 fall threshold. -/
def fallDet : Det := { bbox := some ⟨0, 0, 100, 40⟩, track_id := some "t1", pose := none }

/-- A concrete metric instance for closed statements (any metric gives the
same fall events; the fall rule is purely geometric). -/
def zeroMetric : Metric := fun _ _ => 0

/-- An engine state as freshly constructed (event_engine.py lines 143-148)
with construction time 1000. -/
def engineCex : EngineState :=
  { trackers := [], pose_hist := [], last_cleanup := 1000, last_crowd_alert_time := 0 }

/-- Verification predicate: every tracker entry of post either descends from
an entry of pre with the same key (first_seen preserved, last_seen either kept
or stamped now) or was created this frame (first_seen = last_seen = now). -/
def TrOrigin (pre post : List (String × PersonTracker)) (now : ℚ) : Prop :=
  ∀ tid tr, (tid, tr) ∈ post →
    (∃ tr₀, (tid, tr₀) ∈ pre ∧ tr.first_seen = tr₀.first_seen
      ∧ (tr.last_seen = tr₀.last_seen ∨ tr.last_seen = now))
    ∨ (tr.first_seen = now ∧ tr.last_seen = now)


/- ===================================================================
   SECTION 5: SimpleTracker
   Backend/client/tracker/simple_tracker.py.
   =================================================================== -/

/-- One track record of SimpleTracker (simple_tracker.py lines 65-70):
box, creation and last-update timestamps, and the (frame_time, center)
history (a deque with maxlen 128). -/
structure STrack where
  bbox : Box
  first_seen : ℚ
  last_seen : ℚ
  history : List (ℚ × (ℚ × ℚ))
  deriving Repr, DecidableEq

/-- SimpleTracker state.  Python assigns str(uuid.uuid4()) to every new
track; the uuid supply is modelled as the counter next_id, drawing a fresh,
never-before-issued identifier for each new track (the standard assumption
that fresh uuid4 draws are distinct). -/
structure STState where
  tracks : List (ℕ × STrack)
  next_id : ℕ
  deriving Repr, DecidableEq

/-- Constructor parameters of SimpleTracker (simple_tracker.py line 12):
max_distance 150 px for persons and 200 px for vehicles, max_age 30 s and
60 s, the IoU threshold 0.3 (processing.py lines 244-245). -/
structure STParams where
  max_distance : ℚ
  max_age : ℚ
  iou_threshold : ℚ
  deriving Repr, DecidableEq

/-- The IoU pass of the per-track matching loop (simple_tracker.py lines
24-36): among unassigned detections, the highest IoU of those at or above the
threshold (ties keep the earliest index, since only a strictly larger value
replaces the running best, initialised to 0). -/
def iouPass (θ : ℚ) (dets : List Box) (assigned : List ℕ) (tb : Box) : Option ℕ :=
  (dets.enum.foldl (fun acc pr =>
    if pr.1 ∈ assigned then acc
    else
      let val := iou tb pr.2
      if θ ≤ val ∧ acc.2 < val then (some pr.1, val) else acc)
    ((none : Option ℕ), (0 : ℚ))).1

/-- The centroid-distance fallback (simple_tracker.py lines 39-49): nearest
unassigned detection, accepted only strictly inside max_distance; the running
minimum (initialised to max_distance) is compared squared, which is exact for
a nonnegative max_distance (see the file header). -/
def distPass (maxd : ℚ) (dets : List Box) (assigned : List ℕ) (tb : Box) : Option ℕ :=
  (dets.enum.foldl (fun acc pr =>
    if pr.1 ∈ assigned then acc
    else
      let dsq := distSq (bbox_center tb) (bbox_center pr.2)
      if dsq < acc.2 then (some pr.1, dsq) else acc)
    ((none : Option ℕ), maxd ^ 2)).1

/-- The whole per-track candidate selection (simple_tracker.py lines 24-49):
the distance fallback is consulted only when the IoU pass found nothing. -/
def matchTrack (p : STParams) (dets : List Box) (assigned : List ℕ) (tb : Box) :
    Option ℕ :=
  match iouPass p.iou_threshold dets assigned tb with
  | some i => some i
  | none => distPass p.max_distance dets assigned tb

/-- Deque maxlen 128 semantics for the track history. -/
def capHist (h : List (ℚ × (ℚ × ℚ))) : List (ℚ × (ℚ × ℚ)) :=
  if 128 < h.length then lastN 128 h else h

/-- One iteration of the track-matching loop (simple_tracker.py lines 23-57):
on a match, refresh box, last_seen and history and record the assignment. -/
def match_step (p : STParams) (dets : List Box) (t : ℚ)
    (acc : List (ℕ × STrack) × List (ℕ × ℕ)) (kv : ℕ × STrack) :
    List (ℕ × STrack) × List (ℕ × ℕ) :=
  match matchTrack p dets (acc.2.map (fun a => a.2)) kv.2.bbox with
  | some i =>
    let det := dets.getD i kv.2.bbox
    (acc.1 ++ [(kv.1, { kv.2 with
                        bbox := det, last_seen := t,
                        history := capHist (kv.2.history ++ [(t, bbox_center det)]) })],
     acc.2 ++ [(kv.1, i)])
  | none => (acc.1 ++ [kv], acc.2)

/-- One iteration of the new-track loop (simple_tracker.py lines 60-71):
an unassigned detection spawns a track under a fresh identifier. -/
def spawn_step (t : ℚ) (acc : List (ℕ × STrack) × ℕ × List (ℕ × ℕ)) (pr : ℕ × Box) :
    List (ℕ × STrack) × ℕ × List (ℕ × ℕ) :=
  if pr.1 ∈ acc.2.2.map (fun a => a.2) then acc
  else
    (acc.1 ++ [(acc.2.1, { bbox := pr.2, first_seen := t, last_seen := t,
                           history := [(t, bbox_center pr.2)] })],
     acc.2.1 + 1, acc.2.2 ++ [(acc.2.1, pr.1)])

/-- SimpleTracker.update, simple_tracker.py lines 18-84: match existing
tracks in insertion order, spawn new tracks for unassigned detections, delete
tracks stale for more than max_age (kept exactly when
frame_time - last_seen ≤ max_age), and attach the assigned track id to each
detection. -/
def tracker_update (p : STParams) (s : STState) (dets : List Box) (frame_time : ℚ) :
    STState × List (Box × Option ℕ) :=
  let m := s.tracks.foldl (match_step p dets frame_time) ([], [])
  let sp := dets.enum.foldl (spawn_step frame_time) (m.1, s.next_id, m.2)
  let tracks3 := sp.1.filter (fun kv => decide (frame_time - kv.2.last_seen ≤ p.max_age))
  let out := dets.enum.map (fun pr =>
    (pr.2, (sp.2.2.find? (fun a => a.2 == pr.1)).map (fun a => a.1)))
  ({ tracks := tracks3, next_id := sp.2.1 }, out)

/-- A run of tracker updates over successive frames. -/
def run_tracker (p : STParams) (s : STState) : List (List Box × ℚ) → STState
  | [] => s
  | f :: rest => run_tracker p (tracker_update p s f.1 f.2).1 rest

/-- Verification predicate: every issued track identifier lies below the
fresh-id counter. -/
def KeysBelow (s : STState) : Prop := ∀ kv ∈ s.tracks, kv.1 < s.next_id

/- ===================================================================
   SECTION 6: Stranger embedding cache
   Backend/app/services/processing.py lines 598-685.
   =================================================================== -/

/-- One entry of ProcessingService.stranger_embeddings
(processing.py lines 662-665). -/
structure StrangerEntry where
  embedding : List ℚ
  timestamp : ℚ
  deriving Repr, DecidableEq

/-- np.dot on equal-length vectors (processing.py line 655); the coarse
embeddings are L2-normalized upstream, so this dot product is the cosine
similarity. -/
def dot : List ℚ → List ℚ → ℚ
  | a :: as, b :: bs => a * b + dot as bs
  | _, _ => 0

/-- The per-person state fields read and written by _check_authorization
(processing.py lines 489-503 initialise them). -/
structure PersonState where
  authorized : Option Bool
  is_returning_stranger : Bool
  first_seen : ℚ
  display_id : ℕ
  name : String
  auth_score : ℚ
  last_auth_check : ℚ
  deriving Repr, DecidableEq

/-- Python str() of an optional string (f-string interpolation of None). -/
def pyStr (o : Option String) : String := o.getD "None"

/-- The known-stranger scan of _check_authorization (processing.py lines
653-659): walk the cache in order, and at the FIRST entry whose dot product
with the fresh embedding exceeds 0.85, refresh that entry timestamp and stop
(the loop breaks); none when no entry matches. -/
def refreshFirstMatch (clip : List ℚ) (now : ℚ) :
    List StrangerEntry → Option (List StrangerEntry)
  | [] => none
  | e :: rest =>
    if (0.85 : ℚ) < dot clip e.embedding then
      some ({ e with timestamp := now } :: rest)
    else (refreshFirstMatch clip now rest).map (fun r => e :: r)

/-- The state-update core of ProcessingService._check_authorization
(processing.py lines 630-682), taking the authorization verdict as input (the
embedding and search stages are the external-model calls above it).  Returns
the updated person state, the updated stranger cache, and whether an
UNAUTHORIZED_PERSON alert is generated on this call.  On an unauthorized
verdict: a cache hit marks the person a returning stranger and refreshes that
entry; a miss inserts the fresh embedding and prunes entries older than one
hour; the alert fires only on a transition into unauthorized, for a person
not marked returning, past the 0.5 s grace period. -/
def check_authorization_step (person : PersonState) (authr : AuthResult)
    (clip : List ℚ) (cache : List StrangerEntry) (now : ℚ) :
    PersonState × List StrangerEntry × Bool :=
  let previous_status := person.authorized
  let p1 := { person with last_auth_check := now, authorized := some authr.authorized,
                          auth_score := authr.score }
  if authr.authorized then
    ({ p1 with name := pyStr authr.name ++ " (" ++ pyStr authr.role ++ ")" },
     cache, false)
  else
    let m := refreshFirstMatch clip now cache
    let cache1 := match m with
      | some c => c
      | none => (cache ++ [({ embedding := clip, timestamp := now } : StrangerEntry)]).filter
          (fun s2 => decide (now - s2.timestamp < 3600))
    let p2 := { p1 with is_returning_stranger := person.is_returning_stranger || m.isSome }
    let p3 := { p2 with name := if p2.is_returning_stranger
        then "Unknown " ++ toString person.display_id ++ " (Returning)"
        else "Unknown " ++ toString person.display_id }
    let alert := (previous_status ≠ some false) ∧ p3.is_returning_stranger = false
        ∧ (0.5 : ℚ) ≤ now - person.first_seen
    (p3, cache1, decide alert)


/- ===================================================================
   THEOREMS
   =================================================================== -/

/-- Claim C1, amended.  The precise branch of authorize_person_hybrid governs
exactly when a precise embedding was supplied AND the top candidate has a
positive precise similarity; under that guard a precise similarity below 0.55
never authorizes, and outside it a coarse similarity below 0.90 never
authorizes.  Both thresholds are inclusive: precise similarity exactly 0.55
with coarse at least the 0.75 sanity floor authorizes via the precise
(arcface) method with confidence equal to the precise score, and coarse
similarity exactly 0.90 with an unusable precise score authorizes via the
coarse (clip) method, in each case provided the stored authorized flag of the
matched record is truthy. -/
theorem authorize_threshold_boundaries :
    (∀ (top : Candidate) (rest : List Candidate),
      0 < top.arcface_score → top.arcface_score < ARCFACE_AUTH_THRESHOLD →
      (authorize_person_hybrid true (top :: rest)).authorized = false)
    ∧ (∀ (hasArcface : Bool) (top : Candidate) (rest : List Candidate),
      ¬(hasArcface = true ∧ 0 < top.arcface_score) →
      top.clip_score < CLIP_AUTH_THRESHOLD →
      (authorize_person_hybrid hasArcface (top :: rest)).authorized = false)
    ∧ (∀ (hasArcface : Bool), (authorize_person_hybrid hasArcface []).authorized = false)
    ∧ (∀ (top : Candidate) (rest : List Candidate),
      top.arcface_score = ARCFACE_AUTH_THRESHOLD → (0.75 : ℚ) ≤ top.clip_score →
      top.authorized = true →
      (authorize_person_hybrid true (top :: rest)).authorized = true
        ∧ (authorize_person_hybrid true (top :: rest)).score = top.arcface_score
        ∧ match_method true (top :: rest) = "arcface")
    ∧ (∀ (top : Candidate) (rest : List Candidate),
      top.clip_score = CLIP_AUTH_THRESHOLD → top.authorized = true →
      (authorize_person_hybrid false (top :: rest)).authorized = true
        ∧ (authorize_person_hybrid false (top :: rest)).score = top.clip_score
        ∧ match_method false (top :: rest) = "clip") := by
  refine ⟨?_, ?_, ?_, ?_, ?_⟩
  · intro top rest hpos hlt
    simp only [authorize_person_hybrid]
    split_ifs with h1 h2 h3 <;> simp_all
    linarith
  · intro ha top rest hnot hlt
    simp only [authorize_person_hybrid]
    split_ifs with h1 h2 h3 <;> simp_all
    linarith
  · intro ha; simp [authorize_person_hybrid]
  · intro top rest harc hclip hflag
    have h0 : (0:ℚ) < top.arcface_score := by
      rw [harc]; norm_num [ARCFACE_AUTH_THRESHOLD]
    have h1 : ARCFACE_AUTH_THRESHOLD ≤ top.arcface_score := le_of_eq harc.symm
    simp [authorize_person_hybrid, match_method, h0, h1, hclip, hflag]
  · intro top rest hclip hflag
    have h1 : CLIP_AUTH_THRESHOLD ≤ top.clip_score := le_of_eq hclip.symm
    simp [authorize_person_hybrid, match_method, h1, hflag]

/-- Claim C1, counterexample to the claim as stated: a call with a valid
precise embedding supplied (hasArcface = true) whose top candidate has precise
similarity 0 (below 0.55) still returns authorized = true, because the code
guard also requires a positive precise score before the precise branch is
taken, and otherwise falls through to the coarse rule (processing.py line 112). -/
theorem authorize_zero_precise_cex :
    (authorize_person_hybrid true [c1Cex]).authorized = true
      ∧ c1Cex.arcface_score < ARCFACE_AUTH_THRESHOLD := by
  constructor
  · norm_num [authorize_person_hybrid, c1Cex, testCandidate, CLIP_AUTH_THRESHOLD]
  · norm_num [c1Cex, testCandidate, ARCFACE_AUTH_THRESHOLD]

/-- Claim C1, witness: concrete instances of all four decision regimes of
authorize_threshold_boundaries. -/
theorem authorize_threshold_boundaries_witness :
    (authorize_person_hybrid true [testCandidate 0.92 0.40 true]).authorized = false
    ∧ (authorize_person_hybrid false [testCandidate 0.89 0 true]).authorized = false
    ∧ (authorize_person_hybrid true [testCandidate 0.75 0.55 true]).authorized = true
    ∧ (authorize_person_hybrid false [testCandidate 0.90 0 true]).authorized = true := by
  refine ⟨?_, ?_, ?_, ?_⟩
  · exact authorize_threshold_boundaries.1 (testCandidate 0.92 0.40 true) []
      (by norm_num [testCandidate]) (by norm_num [testCandidate, ARCFACE_AUTH_THRESHOLD])
  · exact authorize_threshold_boundaries.2.1 false (testCandidate 0.89 0 true) []
      (by simp) (by norm_num [testCandidate, CLIP_AUTH_THRESHOLD])
  · exact (authorize_threshold_boundaries.2.2.2.1 (testCandidate 0.75 0.55 true) []
      (by norm_num [testCandidate, ARCFACE_AUTH_THRESHOLD])
      (by norm_num [testCandidate]) rfl).1
  · exact (authorize_threshold_boundaries.2.2.2.2 (testCandidate 0.90 0 true) []
      (by norm_num [testCandidate, CLIP_AUTH_THRESHOLD]) rfl).1

/-- Claim C2, counterexample to the claim as stated: the scenario outcome is
authorized, yet the record returned by authorize_person_hybrid has keys
authorized, score, name, role, department only; it carries no method key, so
the returned record never contains the method used. -/
theorem authorize_method_key_cex :
    "method" ∉ authResultKeys
      ∧ (authorize_person_hybrid true [c2Pass]).authorized = true := by
  constructor
  · simp [authResultKeys]
  · norm_num [authorize_person_hybrid, c2Pass, testCandidate,
      ARCFACE_AUTH_THRESHOLD]

/-- Claim C2, amended.  A top candidate with precise similarity 0.60 and
coarse similarity 0.92 is authorized with confidence (score) 0.60, the method
computed internally being arcface (precise); with precise 0.60 and coarse 0.70
the result is unauthorized because the 0.75 sanity floor fails; but the
returned record consists of the fields authorized, score, name, role and
department only — the method is computed solely for a debug log line and is
not part of the returned record. -/
theorem authorize_scenario_method :
    (authorize_person_hybrid true [c2Pass]).authorized = true
    ∧ (authorize_person_hybrid true [c2Pass]).score = 0.60
    ∧ match_method true [c2Pass] = "arcface"
    ∧ (authorize_person_hybrid true [c2Floor]).authorized = false
    ∧ "method" ∉ authResultKeys := by
  refine ⟨?_, ?_, ?_, ?_, ?_⟩
  · norm_num [authorize_person_hybrid, c2Pass, testCandidate, ARCFACE_AUTH_THRESHOLD]
  · norm_num [authorize_person_hybrid, c2Pass, testCandidate, ARCFACE_AUTH_THRESHOLD]
  · norm_num [match_method, c2Pass, testCandidate, ARCFACE_AUTH_THRESHOLD]
  · norm_num [authorize_person_hybrid, c2Floor, testCandidate, ARCFACE_AUTH_THRESHOLD]
  · simp [authResultKeys]

/-- Claim C10.  The hybrid authorization returns authorized = true only when
the top candidate carries a truthy stored authorized flag; with a falsy flag
the result is authorized = false named Unauthorized, and when the similarity
gates passed via the precise branch its score still carries the matched
precise similarity.  No similarity alone ever authorizes. -/
theorem authorize_stored_flag_gate :
    (∀ (hasArcface : Bool) (results : List Candidate),
      (authorize_person_hybrid hasArcface results).authorized = true →
      ∃ top rest, results = top :: rest ∧ top.authorized = true)
    ∧ (∀ (hasArcface : Bool) (top : Candidate) (rest : List Candidate),
      top.authorized = false →
      (authorize_person_hybrid hasArcface (top :: rest)).authorized = false
        ∧ (authorize_person_hybrid hasArcface (top :: rest)).name = some "Unauthorized")
    ∧ (∀ (top : Candidate) (rest : List Candidate),
      top.authorized = false → 0 < top.arcface_score →
      ARCFACE_AUTH_THRESHOLD ≤ top.arcface_score → (0.75:ℚ) ≤ top.clip_score →
      (authorize_person_hybrid true (top :: rest)).score = top.arcface_score) := by
  refine ⟨?_, ?_, ?_⟩
  · intro ha results h
    match results with
    | [] => simp [authorize_person_hybrid] at h
    | top :: rest =>
      refine ⟨top, rest, rfl, ?_⟩
      by_cases hf : top.authorized
      · exact hf
      · simp [authorize_person_hybrid, hf] at h
  · intro ha top rest hflag
    constructor <;> simp [authorize_person_hybrid, hflag]
  · intro top rest hflag h0 hthr hclip
    simp [authorize_person_hybrid, h0, hthr, hclip, hflag]

/-- Claim C9.  For every vehicle detection the engine evaluates (confidence at
least 0.5, box present), each of the four violation rules fires exactly when
its own condition holds, independently of the other rules, and when none of
them fires the engine emits exactly the one info-severity vehicle-observed
event. -/
theorem vehicle_rules_independent :
    ∀ (v : Vehicle) (h w : ℚ) (bbox : Box) (vt zone : String),
      v.bbox = some bbox → (0.5:ℚ) ≤ v.conf →
      vt = get_vehicle_type v.class_id → zone = infer_zone_from_position bbox h w →
      ((VEvent.restricted vt zone ∈ evaluate_vehicle_rules v h w)
          ↔ (zone ∈ RESTRICTED_ZONES ∧ ¬(vt = "ambulance" ∧ zone = "emergency")))
      ∧ ((VEvent.heavy vt ∈ evaluate_vehicle_rules v h w)
          ↔ ((vt = "bus" ∨ vt = "truck") ∧ zone = "corridor"))
      ∧ ((VEvent.parking ∈ evaluate_vehicle_rules v h w)
          ↔ (vt = "car" ∧ zone = "corridor"))
      ∧ ((VEvent.overspeed zone ∈ evaluate_vehicle_rules v h w)
          ↔ (estimate_speed_gt v.history 120 = true ∧ zone = "corridor"))
      ∧ (¬(zone ∈ RESTRICTED_ZONES ∧ ¬(vt = "ambulance" ∧ zone = "emergency")) →
         ¬((vt = "bus" ∨ vt = "truck") ∧ zone = "corridor") →
         ¬(vt = "car" ∧ zone = "corridor") →
         ¬(estimate_speed_gt v.history 120 = true ∧ zone = "corridor") →
         evaluate_vehicle_rules v h w = [VEvent.detected vt zone]
           ∧ (VEvent.detected vt zone).severity = "info") := by
  intro v h w bbox vt zone hbb hconf hvt hzone
  have hnc : ¬ (v.conf < 0.5) := not_lt.mpr hconf
  subst hvt hzone
  by_cases c1 : (infer_zone_from_position bbox h w ∈ RESTRICTED_ZONES
      ∧ ¬(get_vehicle_type v.class_id = "ambulance"
          ∧ infer_zone_from_position bbox h w = "emergency")) <;>
    by_cases c2 : ((get_vehicle_type v.class_id = "bus" ∨ get_vehicle_type v.class_id = "truck")
      ∧ infer_zone_from_position bbox h w = "corridor") <;>
    by_cases c3 : (get_vehicle_type v.class_id = "car"
      ∧ infer_zone_from_position bbox h w = "corridor") <;>
    by_cases c4 : (estimate_speed_gt v.history 120 = true
      ∧ infer_zone_from_position bbox h w = "corridor") <;>
    simp [evaluate_vehicle_rules, hbb, hnc, c1, c2, c3, c4, VEvent.severity] <;>
    split_ifs <;> (try simp_all) <;> tauto

/-- Claim C9, witness: the speeding truck in the corridor raises the
restricted-zone, heavy-vehicle and overspeed events together (and no parking
event), while the quiet bicycle yields exactly the single info event. -/
theorem vehicle_rules_independent_witness :
    VEvent.restricted "truck" "corridor" ∈ evaluate_vehicle_rules c9Truck 1000 1000
    ∧ VEvent.heavy "truck" ∈ evaluate_vehicle_rules c9Truck 1000 1000
    ∧ VEvent.overspeed "corridor" ∈ evaluate_vehicle_rules c9Truck 1000 1000
    ∧ VEvent.parking ∉ evaluate_vehicle_rules c9Truck 1000 1000
    ∧ evaluate_vehicle_rules c9Bike 1000 1000 = [VEvent.detected "bicycle" "parking"] := by
  have ht := vehicle_rules_independent c9Truck 1000 1000 ⟨0,0,100,100⟩ "truck" "corridor" rfl
    (by norm_num [c9Truck])
    rfl
    (by norm_num [infer_zone_from_position])
  have hsp : estimate_speed_gt c9Truck.history 120 = true := by
    norm_num [estimate_speed_gt, c9Truck]
  have hb := vehicle_rules_independent c9Bike 1000 1000 ⟨0,600,10,610⟩ "bicycle" "parking" rfl
    (by norm_num [c9Bike])
    rfl
    (by norm_num [infer_zone_from_position])
  refine ⟨?_, ?_, ?_, ?_, ?_⟩
  · exact ht.1.mpr ⟨by simp [RESTRICTED_ZONES], by simp⟩
  · exact ht.2.1.mpr ⟨Or.inr rfl, rfl⟩
  · exact ht.2.2.2.1.mpr ⟨hsp, rfl⟩
  · intro hm
    have := ht.2.2.1.mp hm
    simp at this
  · have hnosp : estimate_speed_gt c9Bike.history 120 = false := by
      norm_num [estimate_speed_gt, c9Bike]
    exact (hb.2.2.2.2 (by simp [RESTRICTED_ZONES]) (by simp) (by simp)
      (by simp [hnosp])).1

/-- Helper: a track whose dict carries the absent hit counter can never
produce an event in a single evaluate_aggression call (the first fast frame
makes the counter 1, below MIN_HITS = 15). -/
theorem evaluate_aggression_fresh (t : AggrTrack) (nearby : List AggrTrack) (now : ℚ)
    (h : t.aggr_hits = 0) : (evaluate_aggression t nearby now).1 = none := by
  simp only [evaluate_aggression, h, MIN_HITS]
  split_ifs <;> simp_all

/-- Helper: _detect_aggression rebuilds every track dict with to_dict, whose
output has no aggr_hits key, so no call ever emits an event. -/
theorem detect_aggression_empty (pose_hist : List (String × List (Option Pose)))
    (trackers : List PersonTracker) (now : ℚ) :
    detect_aggression pose_hist trackers now = [] := by
  have hall : ∀ t ∈ trackers.map PersonTracker.to_dict, t.aggr_hits = 0 := by
    intro t ht
    rcases List.mem_map.mp ht with ⟨tr, _, rfl⟩
    rfl
  show (let tracks := trackers.map PersonTracker.to_dict
    tracks.foldl (fun events track =>
      if pose_reliable pose_hist track.id then
        let nearby := tracks.filter (fun t => t.id ≠ track.id)
        match (evaluate_aggression track nearby now).1 with
        | some e => events ++ [e]
        | none => events
      else events) []) = []
  generalize hfull : trackers.map PersonTracker.to_dict = full at hall
  show full.foldl (fun events track =>
      if pose_reliable pose_hist track.id then
        match (evaluate_aggression track (full.filter (fun t => t.id ≠ track.id)) now).1 with
        | some e => events ++ [e]
        | none => events
      else events) [] = []
  suffices hgen : ∀ (l : List AggrTrack), (∀ t ∈ l, t.aggr_hits = 0) →
      ∀ (acc : List Event), l.foldl (fun events track =>
        if pose_reliable pose_hist track.id then
          match (evaluate_aggression track (full.filter (fun t => t.id ≠ track.id)) now).1 with
          | some e => events ++ [e]
          | none => events
        else events) acc = acc by
    exact hgen full hall []
  intro l hl
  induction l with
  | nil => intro acc; rfl
  | cons hd tl ih =>
    intro acc
    have hhd : hd.aggr_hits = 0 := hl hd (by simp)
    have htl : ∀ t ∈ tl, t.aggr_hits = 0 := fun t ht => hl t (by simp [ht])
    rw [List.foldl_cons]
    have hstep : (if pose_reliable pose_hist hd.id then
        match (evaluate_aggression hd (full.filter (fun t => t.id ≠ hd.id)) now).1 with
        | some e => acc ++ [e]
        | none => acc
      else acc) = acc := by
      split_ifs with hr
      · rw [evaluate_aggression_fresh hd _ now hhd]
      · rfl
    rw [hstep]
    exact ih htl acc

/-- Helper: one fast-frame step of evaluate_aggression under the hit
threshold increments the counter and fixes the window start. -/
theorem eval_fast_step (t : AggrTrack) (now : ℚ)
    (hl : t.left_wrist_history = fastHistory) (hr : t.right_wrist_history = [])
    (hh : t.aggr_hits + 1 < 15) :
    evaluate_aggression t [] now
      = (none, { t with aggr_hits := t.aggr_hits + 1,
                        aggr_start := some (t.aggr_start.getD now) }) := by
  have hfast : wrist_speed_lt fastHistory ARM_SPEED_THRESHOLD = false := by
    norm_num [wrist_speed_lt, fastHistory, ARM_SPEED_THRESHOLD]
  simp [evaluate_aggression, hl, hr, hfast, MIN_HITS, hh]

/-- Helper: closed form of the threaded iteration below the hit threshold. -/
theorem threadAggr_le14 : ∀ n, n ≤ 14 →
    threadAggr n = (none, { fastTrack with
                            aggr_hits := n,
                            aggr_start := if n = 0 then none else some 1 }) := by
  intro n
  induction n with
  | zero => intro _; rfl
  | succ n ih =>
    intro hle
    have hn : n ≤ 14 := by omega
    have hstep : threadAggr (n + 1) = evaluate_aggression (threadAggr n).2 [] ((n : ℚ) + 1) := rfl
    rw [hstep, ih hn]
    have hh : ({ fastTrack with
                 aggr_hits := n,
                 aggr_start := if n = 0 then none else some 1 } : AggrTrack).aggr_hits + 1 < 15 := by
      simp only
      omega
    rw [eval_fast_step _ _ rfl rfl hh]
    rcases Nat.eq_zero_or_pos n with h0 | hpos
    · subst h0; norm_num
    · have hne : n ≠ 0 := Nat.pos_iff_ne_zero.mp hpos
      simp [hne]

/-- Helper: the 15th consecutive qualifying sample emits, under persisted
counter semantics. -/
theorem threadAggr_15 : (threadAggr 15).1 = some (Event.aggressive "a") := by
  have hstep : threadAggr 15 = evaluate_aggression (threadAggr 14).2 [] ((14 : ℚ) + 1) := rfl
  rw [hstep, threadAggr_le14 14 (by omega)]
  have hfast : wrist_speed_lt fastHistory ARM_SPEED_THRESHOLD = false := by
    norm_num [wrist_speed_lt, fastHistory, ARM_SPEED_THRESHOLD]
  simp [evaluate_aggression, hfast, MIN_HITS, MIN_DURATION, fastTrack]
  norm_num

/-- Helper: no event up to the 14th qualifying sample. -/
theorem threadAggr_14 : (threadAggr 14).1 = none := by
  rw [threadAggr_le14 14 (by omega)]

/-- Claim C3 (code bug).  The per-track rule evaluate_aggression, when its
counter state is threaded between calls, first emits at the 15th consecutive
qualifying sample and a slow frame resets the counter to 0 — exactly the
claimed discipline.  But EventEngine._detect_aggression rebuilds each track
dict with to_dict on every call, and to_dict carries no aggr_hits key, so the
counter restarts at zero on every frame and the engine never emits any
aggression or fight event at all. -/
theorem aggression_counter_never_persists :
    (∀ (pose_hist : List (String × List (Option Pose)))
       (trackers : List PersonTracker) (now : ℚ),
        detect_aggression pose_hist trackers now = [])
    ∧ (threadAggr 14).1 = none
    ∧ (threadAggr 15).1 = some (Event.aggressive "a")
    ∧ evaluate_aggression slowTrack [] 5
        = (none, { slowTrack with aggr_hits := 0, aggr_start := none }) := by
  refine ⟨detect_aggression_empty, threadAggr_14, threadAggr_15, ?_⟩
  have hslow : wrist_speed_lt [(⟨0, 0, 0⟩ : Sample), ⟨1, 0, 1⟩] ARM_SPEED_THRESHOLD = true := by
    norm_num [wrist_speed_lt, ARM_SPEED_THRESHOLD]
  have hempty : wrist_speed_lt ([] : List Sample) ARM_SPEED_THRESHOLD = true := by
    norm_num [wrist_speed_lt, ARM_SPEED_THRESHOLD]
  simp [evaluate_aggression, slowTrack, fastTrack, hslow, hempty]

/-- Claim C10, witness: a soft-revoked record (flag false) with passing
similarity scores is rejected, labelled Unauthorized, and keeps the matched
precise similarity as its score. -/
theorem authorize_stored_flag_gate_witness :
    (authorize_person_hybrid true [testCandidate 0.95 0.9 false]).authorized = false
    ∧ (authorize_person_hybrid true [testCandidate 0.95 0.9 false]).name = some "Unauthorized"
    ∧ (authorize_person_hybrid true [testCandidate 0.95 0.9 false]).score
        = (testCandidate 0.95 0.9 false).arcface_score := by
  refine ⟨(authorize_stored_flag_gate.2.1 true (testCandidate 0.95 0.9 false) [] rfl).1,
    (authorize_stored_flag_gate.2.1 true (testCandidate 0.95 0.9 false) [] rfl).2,
    authorize_stored_flag_gate.2.2 (testCandidate 0.95 0.9 false) [] rfl
      (by norm_num [testCandidate])
      (by norm_num [testCandidate, ARCFACE_AUTH_THRESHOLD])
      (by norm_num [testCandidate])⟩

/-- Helper: the append-collecting fold is filterMap. -/
theorem collect_eq_filterMap {α : Type} (f : α → Option Event) (l : List α) :
    collect f l = l.filterMap f := by
  suffices h : ∀ acc, l.foldl (fun acc x =>
      match f x with
      | some e => acc ++ [e]
      | none => acc) acc = acc ++ l.filterMap f by
    simpa [collect] using h []
  induction l with
  | nil => intro acc; simp
  | cons hd tl ih =>
    intro acc
    cases hfc : f hd <;> simp [hfc, ih]

/-- Helper: cleanup does not touch the crowd cooldown stamp. -/
theorem cleanup_last_crowd (st : EngineState) (now : ℚ) :
    (cleanup_step st now).last_crowd_alert_time = st.last_crowd_alert_time := by
  unfold cleanup_step
  split_ifs <;> rfl

/-- Helper: cleanup only removes tracker entries. -/
theorem cleanup_subset (st : EngineState) (now : ℚ) (tid : String) (tr : PersonTracker) :
    (tid, tr) ∈ (cleanup_step st now).trackers → (tid, tr) ∈ st.trackers := by
  unfold cleanup_step
  split_ifs with h
  · exact fun hm => List.mem_of_mem_filter hm
  · exact fun hm => hm

/-- Helper: the event list and final state of analyze_frame, with the
aggression component removed (it is always empty). -/
theorem analyze_frame_spec (d : Metric) (st : EngineState) (dets : List Det) (now : ℚ) :
    analyze_frame d st dets now
      = (collect (loiter_check d
            (ingest d (cleanup_step st now).trackers (cleanup_step st now).pose_hist dets now).2.2)
            (ingest d (cleanup_step st now).trackers (cleanup_step st now).pose_hist dets now).1
          ++ collect (run_check
            (ingest d (cleanup_step st now).trackers (cleanup_step st now).pose_hist dets now).2.2)
            (ingest d (cleanup_step st now).trackers (cleanup_step st now).pose_hist dets now).1
          ++ (crowd_step d (cleanup_step st now).last_crowd_alert_time dets now).1
          ++ collect fall_check dets,
         { trackers := (ingest d (cleanup_step st now).trackers (cleanup_step st now).pose_hist dets now).1,
           pose_hist := (ingest d (cleanup_step st now).trackers (cleanup_step st now).pose_hist dets now).2.1,
           last_cleanup := (cleanup_step st now).last_cleanup,
           last_crowd_alert_time := (crowd_step d (cleanup_step st now).last_crowd_alert_time dets now).2 }) := by
  simp only [analyze_frame, detect_aggression_empty]
  split_ifs <;> simp

/-- Helper: loiter_check only produces loitering events, and only under both
loitering conditions. -/
theorem loiter_check_shape (d : Metric) (active : List String)
    (kv : String × PersonTracker) (e : Event) (h : loiter_check d active kv = some e) :
    e = Event.loitering kv.1 (get_stationary_time d kv.2)
      ∧ kv.1 ∈ active
      ∧ LOITERING_THRESHOLD_SECS ≤ get_stationary_time d kv.2
      ∧ LOITERING_THRESHOLD_SECS ≤ kv.2.last_seen - kv.2.first_seen := by
  unfold loiter_check at h
  split_ifs at h with h1 h2 h3 <;> simp_all

/-- Helper: run_check only produces running events. -/
theorem run_check_shape (active : List String) (kv : String × PersonTracker) (e : Event)
    (h : run_check active kv = some e) :
    e = Event.running kv.1 kv.2.velocity := by
  unfold run_check at h
  split_ifs at h <;> simp_all

/-- Helper: fall_check only produces fall events. -/
theorem fall_check_shape (det : Det) (e : Event) (h : fall_check det = some e) :
    ∃ b, det.bbox = some b ∧ e = Event.fall b := by
  unfold fall_check at h
  cases hb : det.bbox with
  | none => rw [hb] at h; simp at h
  | some b =>
    rw [hb] at h
    simp only at h
    split_ifs at h with hcond
    exact ⟨b, rfl, by simp_all⟩

/-- Helper: crowd events occur in the crowd component only under the count
and cooldown conditions, and the stamp moves to now. -/
theorem crowd_step_small (d : Metric) (last : ℚ) (dets : List Det) (now : ℚ)
    (h : ¬ CROWD_PERSON_THRESHOLD ≤ dets.length) :
    crowd_step d last dets now = ([], last) := by
  unfold crowd_step
  simp [h]

/-- Helper: crowd events occur in the crowd component only under the count
and cooldown conditions, and the stamp moves to now. -/
theorem crowd_step_mem (d : Metric) (last : ℚ) (dets : List Det) (now : ℚ)
    (pc : ℕ) (ic : Bool) (sev : String)
    (h : Event.crowd pc ic sev ∈ (crowd_step d last dets now).1) :
    CROWD_ALERT_COOLDOWN ≤ now - last
      ∧ CROWD_PERSON_THRESHOLD ≤ dets.length
      ∧ (crowd_step d last dets now).2 = now
      ∧ pc = dets.length := by
  by_cases hc : CROWD_PERSON_THRESHOLD ≤ dets.length
  · by_cases hw : CROWD_ALERT_COOLDOWN ≤ now - last
    · have heq : crowd_step d last dets now
          = ([Event.crowd dets.length (crowdClustered d dets) (crowdSeverity dets)], now) := by
        unfold crowd_step
        simp [hc, hw]
      rw [heq] at h ⊢
      simp at h
      exact ⟨hw, hc, rfl, h.1⟩
    · have heq : crowd_step d last dets now = ([], last) := by
        unfold crowd_step
        simp [hc, hw]
      rw [heq] at h
      simp at h
  · rw [crowd_step_small d last dets now hc] at h
    simp at h

/-- Helper: inside the cooldown window the crowd component is empty and the
stamp unchanged. -/
theorem crowd_step_within (d : Metric) (last : ℚ) (dets : List Det) (now : ℚ)
    (h : now - last < CROWD_ALERT_COOLDOWN) :
    crowd_step d last dets now = ([], last) := by
  unfold crowd_step
  have hw : ¬ CROWD_ALERT_COOLDOWN ≤ now - last := not_le.mpr h
  by_cases hc : CROWD_PERSON_THRESHOLD ≤ dets.length <;> simp [hc, hw]

/-- Helper: with enough people and the window elapsed the crowd component
fires. -/
theorem crowd_step_fires (d : Metric) (last : ℚ) (dets : List Det) (now : ℚ)
    (hc : CROWD_PERSON_THRESHOLD ≤ dets.length)
    (hw : CROWD_ALERT_COOLDOWN ≤ now - last) :
    crowd_step d last dets now
      = ([Event.crowd dets.length (crowdClustered d dets) (crowdSeverity dets)], now) := by
  unfold crowd_step
  simp [hc, hw]

/-- Helper: looking up a key just set returns the set value. -/
theorem lookupCd_setCd (l : List ((ℕ × String) × ℚ)) (k : ℕ × String) (v : ℚ) :
    lookupCd (setCd l k v) k = some v := by
  induction l with
  | nil => simp [setCd, lookupCd]
  | cons hd tl ih =>
    by_cases h : hd.1 = k
    · simp [setCd, lookupCd, h]
    · simp [setCd, lookupCd, h, ih]

/-- Helper: a fall detection always contributes its event to the frame
output, whatever the engine state. -/
theorem fall_mem (d : Metric) (st : EngineState) (dets : List Det) (now : ℚ)
    (det : Det) (e : Event) (hdet : det ∈ dets) (hfc : fall_check det = some e) :
    e ∈ (analyze_frame d st dets now).1 := by
  have hd : e ∈ collect fall_check dets := by
    rw [collect_eq_filterMap]
    exact List.mem_filterMap.mpr ⟨det, hdet, hfc⟩
  rw [analyze_frame_spec]
  simp only [List.mem_append]
  tauto

/-- Helper: TrOrigin is reflexive. -/
theorem trOrigin_refl (l : List (String × PersonTracker)) (now : ℚ) : TrOrigin l l now := by
  intro tid tr h
  exact Or.inl ⟨tr, h, rfl, Or.inl rfl⟩

/-- Helper: TrOrigin composes. -/
theorem trOrigin_trans {a b c : List (String × PersonTracker)} {now : ℚ}
    (h1 : TrOrigin a b now) (h2 : TrOrigin b c now) : TrOrigin a c now := by
  intro tid tr hm
  rcases h2 tid tr hm with ⟨tr1, hmem1, hf1, hl1⟩ | hnew
  · rcases h1 tid tr1 hmem1 with ⟨tr0, hmem0, hf0, hl0⟩ | hnew1
    · refine Or.inl ⟨tr0, hmem0, hf1.trans hf0, ?_⟩
      rcases hl1 with h | h
      · rcases hl0 with h2 | h2
        · exact Or.inl (h.trans h2)
        · exact Or.inr (h.trans h2)
      · exact Or.inr h
    · rcases hl1 with h | h
      · exact Or.inr ⟨hf1.trans hnew1.1, h.trans hnew1.2⟩
      · exact Or.inr ⟨hf1.trans hnew1.1, h⟩
  · exact Or.inr hnew

/-- Helper: PersonTracker.update keeps first_seen and stamps last_seen. -/
theorem update_first_last (d : Metric) (tr : PersonTracker) (pos : ℚ × ℚ) (ts : ℚ)
    (bbox : Option Box) (pose : Option Pose) :
    (tr.update d pos ts bbox pose).first_seen = tr.first_seen
      ∧ (tr.update d pos ts bbox pose).last_seen = ts := by
  unfold PersonTracker.update
  dsimp only
  constructor <;> (split_ifs <;> rfl)

/-- Helper: membership after updateAt. -/
theorem updateAt_mem {β : Type} (l : List (String × β)) (tid : String) (f : β → β)
    (k : String) (v : β) (h : (k, v) ∈ updateAt l tid f) :
    (k, v) ∈ l ∨ ∃ v₀, (k, v₀) ∈ l ∧ v = f v₀ := by
  unfold updateAt at h
  rcases List.mem_map.mp h with ⟨⟨k1, v1⟩, hkv, heq⟩
  by_cases hk : k1 = tid
  · rw [if_pos (by simpa using hk)] at heq
    simp only [Prod.mk.injEq] at heq
    exact Or.inr ⟨v1, heq.1 ▸ hkv, heq.2.symm⟩
  · rw [if_neg (by simpa using hk)] at heq
    exact Or.inl (heq ▸ hkv)

/-- Helper: the fallback path of the tracker-update loop only updates or
creates entries. -/
theorem find_or_create_origin (d : Metric) (trackers : List (String × PersonTracker))
    (x y ts : ℚ) (bbox : Option Box) :
    TrOrigin trackers (find_or_create_tracker d trackers x y ts bbox).2 ts := by
  unfold find_or_create_tracker
  cases hbest : closest_tracker trackers x y ts with
  | some closest =>
    simp only
    intro tid tr hm
    rcases updateAt_mem _ _ _ _ _ hm with hold | ⟨v₀, hmem, heq⟩
    · exact Or.inl ⟨tr, hold, rfl, Or.inl rfl⟩
    · exact Or.inl ⟨v₀, hmem,
        heq ▸ (update_first_last d v₀ (x, y) ts bbox none).1,
        Or.inr (heq ▸ (update_first_last d v₀ (x, y) ts bbox none).2)⟩
  | none =>
    simp only
    intro tid tr hm
    rcases List.mem_append.mp hm with hold | hnew
    · exact Or.inl ⟨tr, hold, rfl, Or.inl rfl⟩
    · simp only [List.mem_singleton, Prod.mk.injEq] at hnew
      exact Or.inr ⟨hnew.2 ▸ rfl, hnew.2 ▸ rfl⟩

/-- Helper: one detection step of the tracker-update loop only updates or
creates entries. -/
theorem ingest_step_origin (d : Metric) (now : ℚ)
    (acc : List (String × PersonTracker) × List (String × List (Option Pose)) × List String)
    (det : Det) : TrOrigin acc.1 (ingest_step d now acc det).1 now := by
  unfold ingest_step
  cases hb : det.bbox with
  | none => exact trOrigin_refl _ _
  | some bbox =>
    simp only
    cases ht : det.track_id with
    | some ext =>
      by_cases hk : hasKey acc.1 ext
      · simp only [hk, if_true]
        intro tid tr hm
        rcases updateAt_mem _ _ _ _ _ hm with hold | ⟨v₀, hmem, heq⟩
        · exact Or.inl ⟨tr, hold, rfl, Or.inl rfl⟩
        · exact Or.inl ⟨v₀, hmem,
            heq ▸ (update_first_last d v₀ _ now (some bbox) det.pose).1,
            Or.inr (heq ▸ (update_first_last d v₀ _ now (some bbox) det.pose).2)⟩
      · simp only [hk, if_false]
        intro tid tr hm
        rcases List.mem_append.mp hm with hold | hnew
        · exact Or.inl ⟨tr, hold, rfl, Or.inl rfl⟩
        · simp only [List.mem_singleton, Prod.mk.injEq] at hnew
          exact Or.inr ⟨hnew.2 ▸ rfl, hnew.2 ▸ rfl⟩
    | none =>
      simp only
      exact find_or_create_origin d acc.1 _ _ now (some bbox)

/-- Helper: the whole tracker-update loop only updates or creates entries. -/
theorem ingest_origin (d : Metric) (now : ℚ) (dets : List Det) :
    ∀ (acc : List (String × PersonTracker) × List (String × List (Option Pose)) × List String),
      TrOrigin acc.1 (dets.foldl (ingest_step d now) acc).1 now := by
  induction dets with
  | nil => intro acc; exact trOrigin_refl _ _
  | cons hd tl ih =>
    intro acc
    rw [List.foldl_cons]
    exact trOrigin_trans (ingest_step_origin d now acc hd) (ih (ingest_step d now acc hd))

/-- Helper: crowd_step only produces crowd events. -/
theorem crowd_step_only_crowd (d : Metric) (last : ℚ) (dets : List Det) (now : ℚ)
    (e : Event) (h : e ∈ (crowd_step d last dets now).1) :
    ∃ pc ic sev, e = Event.crowd pc ic sev := by
  by_cases hc : CROWD_PERSON_THRESHOLD ≤ dets.length
  · by_cases hw : CROWD_ALERT_COOLDOWN ≤ now - last
    · rw [crowd_step_fires d last dets now hc hw] at h
      simp at h
      exact ⟨_, _, _, h⟩
    · rw [crowd_step_within d last dets now (by linarith [not_le.mp hw])] at h
      simp at h
  · rw [crowd_step_small d last dets now hc] at h
    simp at h

/-- Helper: any loitering event in the frame output identifies a post-update
tracker entry satisfying both loitering conditions. -/
theorem loitering_mem_spec (d : Metric) (st : EngineState) (dets : List Det) (now : ℚ)
    (tid : String) (dur : ℚ)
    (h : Event.loitering tid dur ∈ (analyze_frame d st dets now).1) :
    ∃ tr, (tid, tr) ∈ (analyze_frame d st dets now).2.trackers
      ∧ dur = get_stationary_time d tr
      ∧ LOITERING_THRESHOLD_SECS ≤ get_stationary_time d tr
      ∧ LOITERING_THRESHOLD_SECS ≤ tr.last_seen - tr.first_seen := by
  rw [analyze_frame_spec] at h ⊢
  simp only [List.mem_append] at h
  rcases h with ((hL | hR) | hC) | hF
  · rw [collect_eq_filterMap] at hL
    rcases List.mem_filterMap.mp hL with ⟨kv, hkv, hf⟩
    obtain ⟨heq, hact, hstat, hspan⟩ := loiter_check_shape _ _ _ _ hf
    simp only [Event.loitering.injEq] at heq
    refine ⟨kv.2, ?_, heq.2, hstat, hspan⟩
    simp only
    rw [heq.1]
    simpa using hkv
  · rw [collect_eq_filterMap] at hR
    rcases List.mem_filterMap.mp hR with ⟨kv, hkv, hf⟩
    have := run_check_shape _ _ _ hf
    simp at this
  · have := crowd_step_only_crowd _ _ _ _ _ hC
    simp at this
  · rw [collect_eq_filterMap] at hF
    rcases List.mem_filterMap.mp hF with ⟨det, hdet, hf⟩
    obtain ⟨b, _, hb⟩ := fall_check_shape _ _ hf
    simp at hb

/-- Helper: any crowd event in the frame output certifies the cooldown and
count conditions, and the cooldown stamp moves to now. -/
theorem crowd_mem_spec (d : Metric) (st : EngineState) (dets : List Det) (now : ℚ)
    (pc : ℕ) (ic : Bool) (sev : String)
    (h : Event.crowd pc ic sev ∈ (analyze_frame d st dets now).1) :
    CROWD_ALERT_COOLDOWN ≤ now - st.last_crowd_alert_time
      ∧ (analyze_frame d st dets now).2.last_crowd_alert_time = now
      ∧ CROWD_PERSON_THRESHOLD ≤ dets.length
      ∧ pc = dets.length := by
  rw [analyze_frame_spec] at h ⊢
  simp only [List.mem_append] at h
  rcases h with ((hL | hR) | hC) | hF
  · rw [collect_eq_filterMap] at hL
    rcases List.mem_filterMap.mp hL with ⟨kv, hkv, hf⟩
    obtain ⟨heq, -, -, -⟩ := loiter_check_shape _ _ _ _ hf
    simp at heq
  · rw [collect_eq_filterMap] at hR
    rcases List.mem_filterMap.mp hR with ⟨kv, hkv, hf⟩
    have := run_check_shape _ _ _ hf
    simp at this
  · have hmem := crowd_step_mem _ _ _ _ _ _ _ hC
    rw [cleanup_last_crowd] at hmem
    refine ⟨hmem.1, ?_, hmem.2.1, hmem.2.2.2⟩
    simp only [cleanup_last_crowd]
    exact hmem.2.2.1
  · rw [collect_eq_filterMap] at hF
    rcases List.mem_filterMap.mp hF with ⟨det, hdet, hf⟩
    obtain ⟨b, -, hb⟩ := fall_check_shape _ _ hf
    simp at hb

/-- Claim C5.  A loitering event is emitted for a track only when the stored
stationary duration is at least 300 s and the whole observed span
last_seen - first_seen is at least 300 s; consequently a track first seen
200 s before the current frame can never trigger loitering, whatever its
stationary-time bookkeeping (the statement holds for every metric d). -/
theorem loitering_requires_full_span :
    (∀ (d : Metric) (st : EngineState) (dets : List Det) (now : ℚ) (tid : String) (dur : ℚ),
      Event.loitering tid dur ∈ (analyze_frame d st dets now).1 →
      ∃ tr, (tid, tr) ∈ (analyze_frame d st dets now).2.trackers
        ∧ dur = get_stationary_time d tr
        ∧ LOITERING_THRESHOLD_SECS ≤ get_stationary_time d tr
        ∧ LOITERING_THRESHOLD_SECS ≤ tr.last_seen - tr.first_seen)
    ∧ (∀ (d : Metric) (st : EngineState) (dets : List Det) (now : ℚ) (tid : String) (dur : ℚ),
      (∀ kv ∈ st.trackers, kv.2.last_seen ≤ now) →
      (∀ tr, (tid, tr) ∈ st.trackers → now - tr.first_seen ≤ 200) →
      Event.loitering tid dur ∉ (analyze_frame d st dets now).1) := by
  constructor
  · exact loitering_mem_spec
  · intro d st dets now tid dur hwf h200 h
    obtain ⟨tr, hmem, hdur, hstat, hspan⟩ := loitering_mem_spec d st dets now tid dur h
    rw [analyze_frame_spec] at hmem
    simp only at hmem
    have horig := ingest_origin d now dets
      ((cleanup_step st now).trackers, (cleanup_step st now).pose_hist, []) tid tr hmem
    norm_num [LOITERING_THRESHOLD_SECS] at hspan
    rcases horig with ⟨tr₀, hm0, hf, hl⟩ | ⟨hf, hl⟩
    · have hm0s : (tid, tr₀) ∈ st.trackers := cleanup_subset st now tid tr₀ hm0
      have h2 := h200 tr₀ hm0s
      have h3 : tr.last_seen ≤ now := by
        rcases hl with hx | hx
        · rw [hx]; exact hwf (tid, tr₀) hm0s
        · rw [hx]
      rw [hf] at hspan
      linarith
    · rw [hf, hl] at hspan
      linarith

/-- Claim C5, witness: a stationary track first seen 200 s ago (800 at frame
time 1000) cannot raise loitering whatever its bookkeeping; instantiated with
the zero metric and an empty frame. -/
theorem loitering_requires_full_span_witness :
    Event.loitering "w" 300 ∉ (analyze_frame zeroMetric
      { trackers := [("w", newTracker "w" 5 5 800 none)], pose_hist := [],
        last_cleanup := 995, last_crowd_alert_time := 0 } [] 1000).1 := by
  refine loitering_requires_full_span.2 zeroMetric _ [] 1000 "w" 300 ?_ ?_
  · intro kv hkv
    simp only [List.mem_singleton] at hkv
    subst hkv
    norm_num [newTracker]
  · intro tr htr
    simp only [List.mem_singleton, Prod.mk.injEq] at htr
    rw [htr.2]
    norm_num [newTracker]

/-- Claim C4, amended.  The scene-level crowd alert obeys its 60 s global
cooldown (no crowd event within the window, a crowd event with the current
count once the window has elapsed and at least 3 people are present, the
stamp moving to now on emission), and the per-(vehicle id, event type) alert
gate of _process_vehicles suppresses an identical submission within its 60 s
window and fires again after it; the behavior-event relay of
_analyze_behaviors, however, forwards engine events with no cooldown (see the
counterexample). -/
theorem alert_cooldowns_discipline :
    (∀ (d : Metric) (st : EngineState) (dets : List Det) (now : ℚ)
       (pc : ℕ) (ic : Bool) (sev : String),
      Event.crowd pc ic sev ∈ (analyze_frame d st dets now).1 →
      CROWD_ALERT_COOLDOWN ≤ now - st.last_crowd_alert_time
        ∧ (analyze_frame d st dets now).2.last_crowd_alert_time = now
        ∧ CROWD_PERSON_THRESHOLD ≤ dets.length)
    ∧ (∀ (d : Metric) (st : EngineState) (dets : List Det) (now : ℚ),
      now - st.last_crowd_alert_time < CROWD_ALERT_COOLDOWN →
      (∀ (pc : ℕ) (ic : Bool) (sev : String),
          Event.crowd pc ic sev ∉ (analyze_frame d st dets now).1)
        ∧ (analyze_frame d st dets now).2.last_crowd_alert_time
            = st.last_crowd_alert_time)
    ∧ (∀ (d : Metric) (st : EngineState) (dets : List Det) (now : ℚ),
      CROWD_PERSON_THRESHOLD ≤ dets.length →
      CROWD_ALERT_COOLDOWN ≤ now - st.last_crowd_alert_time →
      ∃ ic sev, Event.crowd dets.length ic sev ∈ (analyze_frame d st dets now).1)
    ∧ (∀ (cds : List ((ℕ × String) × ℚ)) (vid : ℕ) (et : String) (now now2 : ℚ),
      (vehicle_alert_gate cds vid et now).1 = true →
      now2 - now < ALERT_COOLDOWN_VEHICLE →
      (vehicle_alert_gate (vehicle_alert_gate cds vid et now).2 vid et now2).1 = false)
    ∧ (∀ (cds : List ((ℕ × String) × ℚ)) (vid : ℕ) (et : String) (now now2 : ℚ),
      (vehicle_alert_gate cds vid et now).1 = true →
      ALERT_COOLDOWN_VEHICLE ≤ now2 - now →
      (vehicle_alert_gate (vehicle_alert_gate cds vid et now).2 vid et now2).1 = true) := by
  have hgate2 : ∀ (cds : List ((ℕ × String) × ℚ)) (vid : ℕ) (et : String) (now : ℚ),
      (vehicle_alert_gate cds vid et now).1 = true →
      (vehicle_alert_gate cds vid et now).2 = setCd cds (vid, et) now := by
    intro cds vid et now h
    unfold vehicle_alert_gate at h ⊢
    dsimp only at h ⊢
    split_ifs at h ⊢ with hc
    rfl
  refine ⟨?_, ?_, ?_, ?_, ?_⟩
  · intro d st dets now pc ic sev h
    have := crowd_mem_spec d st dets now pc ic sev h
    exact ⟨this.1, this.2.1, this.2.2.1⟩
  · intro d st dets now hw
    constructor
    · intro pc ic sev h
      have := crowd_mem_spec d st dets now pc ic sev h
      linarith [this.1]
    · rw [analyze_frame_spec]
      simp only
      rw [cleanup_last_crowd]
      rw [crowd_step_within d st.last_crowd_alert_time dets now hw]
  · intro d st dets now hc hw
    refine ⟨crowdClustered d dets, crowdSeverity dets, ?_⟩
    rw [analyze_frame_spec]
    simp only [List.mem_append, cleanup_last_crowd]
    left; right
    rw [crowd_step_fires d st.last_crowd_alert_time dets now hc hw]
    simp
  · intro cds vid et now now2 h1 hlt
    rw [hgate2 cds vid et now h1]
    unfold vehicle_alert_gate
    rw [lookupCd_setCd]
    simp only [Option.getD_some]
    rw [if_neg (by exact not_le.mpr hlt)]
  · intro cds vid et now now2 h1 hge
    rw [hgate2 cds vid et now h1]
    unfold vehicle_alert_gate
    rw [lookupCd_setCd]
    simp only [Option.getD_some]
    rw [if_pos hge]

/-- Claim C4, witness: with the crowd stamp at 0, three people at time 30 are
suppressed (within the 60 s window) and three people at time 61 fire a crowd
event; a vehicle alert fired at time 100 is suppressed at time 130 and fires
again at time 160. -/
theorem alert_cooldowns_discipline_witness :
    (∀ (pc : ℕ) (ic : Bool) (sev : String),
        Event.crowd pc ic sev ∉
          (analyze_frame zeroMetric engineCex [fallDet, fallDet, fallDet] 30).1)
    ∧ (∃ ic sev, Event.crowd 3 ic sev ∈
        (analyze_frame zeroMetric engineCex [fallDet, fallDet, fallDet] 61).1)
    ∧ (vehicle_alert_gate (vehicle_alert_gate [] 1 "OVER_SPEED_VEHICLE" 100).2
        1 "OVER_SPEED_VEHICLE" 130).1 = false
    ∧ (vehicle_alert_gate (vehicle_alert_gate [] 1 "OVER_SPEED_VEHICLE" 100).2
        1 "OVER_SPEED_VEHICLE" 160).1 = true := by
  have hfirst : (vehicle_alert_gate [] 1 "OVER_SPEED_VEHICLE" 100).1 = true := by
    norm_num [vehicle_alert_gate, lookupCd, ALERT_COOLDOWN_VEHICLE]
  refine ⟨?_, ?_, ?_, ?_⟩
  · exact (alert_cooldowns_discipline.2.1 zeroMetric engineCex [fallDet, fallDet, fallDet] 30
      (by norm_num [engineCex, CROWD_ALERT_COOLDOWN])).1
  · exact alert_cooldowns_discipline.2.2.1 zeroMetric engineCex [fallDet, fallDet, fallDet] 61
      (by norm_num [CROWD_PERSON_THRESHOLD]) (by norm_num [engineCex, CROWD_ALERT_COOLDOWN])
  · exact alert_cooldowns_discipline.2.2.2.1 [] 1 "OVER_SPEED_VEHICLE" 100 130 hfirst
      (by norm_num [ALERT_COOLDOWN_VEHICLE])
  · exact alert_cooldowns_discipline.2.2.2.2 [] 1 "OVER_SPEED_VEHICLE" 100 160 hfirst
      (by norm_num [ALERT_COOLDOWN_VEHICLE])

/-- Claim C4, counterexample to the claim as stated: the behavior-event relay
of _analyze_behaviors (processing.py lines 799-808) performs no cooldown
check, so the identical fall event for the same subject submitted again only
0.2 s later — far inside every 30-60 s window — is emitted a second time. -/
theorem behavior_alert_no_cooldown_cex :
    Event.fall ⟨0, 0, 100, 40⟩ ∈ (analyze_behaviors zeroMetric engineCex [fallDet] 1000).1
      ∧ Event.fall ⟨0, 0, 100, 40⟩ ∈ (analyze_behaviors zeroMetric
          (analyze_behaviors zeroMetric engineCex [fallDet] 1000).2
          [fallDet] (1000 + 1/5)).1 := by
  have hfc : fall_check fallDet = some (Event.fall ⟨0, 0, 100, 40⟩) := by
    norm_num [fall_check, fallDet, FALL_VERTICAL_RATIO_THRESHOLD]
  exact ⟨fall_mem zeroMetric engineCex [fallDet] 1000 fallDet _ (by simp) hfc,
    fall_mem zeroMetric _ [fallDet] (1000 + 1/5) fallDet _ (by simp) hfc⟩

/-- Helper: after update, every surviving track was updated within max_age. -/
theorem tracker_update_expiry (p : STParams) (s : STState) (dets : List Box) (t : ℚ) :
    ∀ kv ∈ (tracker_update p s dets t).1.tracks, t - kv.2.last_seen ≤ p.max_age := by
  intro kv hkv
  unfold tracker_update at hkv
  simp only at hkv
  exact of_decide_eq_true (List.mem_filter.mp hkv).2

/-- Helper: the matching loop only rewrites values, never keys. -/
theorem match_fold_keys (p : STParams) (dets : List Box) (t : ℚ) :
    ∀ (l : List (ℕ × STrack)) (acc : List (ℕ × STrack) × List (ℕ × ℕ)),
      ∀ kv ∈ (l.foldl (match_step p dets t) acc).1,
        kv ∈ acc.1 ∨ ∃ kv₀ ∈ l, kv.1 = kv₀.1 := by
  intro l
  induction l with
  | nil => intro acc kv h; exact Or.inl h
  | cons hd tl ih =>
    intro acc kv h
    rw [List.foldl_cons] at h
    rcases ih _ kv h with hacc | ⟨kv₀, hm, he⟩
    · unfold match_step at hacc
      cases hmt : matchTrack p dets (acc.2.map (fun a => a.2)) hd.2.bbox with
      | some i =>
        rw [hmt] at hacc
        simp only at hacc
        rcases List.mem_append.mp hacc with h1 | h2
        · exact Or.inl h1
        · simp only [List.mem_singleton] at h2
          exact Or.inr ⟨hd, by simp, by rw [h2]⟩
      | none =>
        rw [hmt] at hacc
        rcases List.mem_append.mp hacc with h1 | h2
        · exact Or.inl h1
        · simp only [List.mem_singleton] at h2
          exact Or.inr ⟨hd, by simp, by rw [h2]⟩
    · exact Or.inr ⟨kv₀, by simp [hm], he⟩

/-- Helper: the spawning loop only appends tracks with fresh increasing
identifiers. -/
theorem spawn_fold_keys (t : ℚ) :
    ∀ (l : List (ℕ × Box)) (acc : List (ℕ × STrack) × ℕ × List (ℕ × ℕ)),
      acc.2.1 ≤ (l.foldl (spawn_step t) acc).2.1
      ∧ ∀ kv ∈ (l.foldl (spawn_step t) acc).1,
          kv ∈ acc.1 ∨ (acc.2.1 ≤ kv.1 ∧ kv.1 < (l.foldl (spawn_step t) acc).2.1) := by
  intro l
  induction l with
  | nil => intro acc; exact ⟨le_refl _, fun kv h => Or.inl h⟩
  | cons hd tl ih =>
    intro acc
    rw [List.foldl_cons]
    obtain ⟨hle, hmem⟩ := ih (spawn_step t acc hd)
    have h1 : acc.2.1 ≤ (spawn_step t acc hd).2.1 := by
      unfold spawn_step
      split_ifs <;> simp
    refine ⟨le_trans h1 hle, ?_⟩
    intro kv h
    rcases hmem kv h with hin | ⟨hge, hlt⟩
    · unfold spawn_step at hin
      split_ifs at hin with hc
      · exact Or.inl hin
      · simp only at hin
        rcases List.mem_append.mp hin with ha | hb
        · exact Or.inl ha
        · simp only [List.mem_singleton] at hb
          have hsp : (spawn_step t acc hd).2.1 = acc.2.1 + 1 := by
            unfold spawn_step
            rw [if_neg hc]
          right
          constructor
          · rw [hb]
          · rw [hb]
            calc acc.2.1 < acc.2.1 + 1 := by omega
              _ = (spawn_step t acc hd).2.1 := hsp.symm
              _ ≤ _ := hle
    · exact Or.inr ⟨le_trans h1 hge, hlt⟩

/-- Helper: update never lowers the fresh-id counter, and every surviving
track either keeps a previously issued key or got a fresh one. -/
theorem tracker_update_keys (p : STParams) (s : STState) (dets : List Box) (t : ℚ) :
    s.next_id ≤ (tracker_update p s dets t).1.next_id
    ∧ ∀ kv ∈ (tracker_update p s dets t).1.tracks,
        (∃ kv₀ ∈ s.tracks, kv.1 = kv₀.1)
          ∨ (s.next_id ≤ kv.1 ∧ kv.1 < (tracker_update p s dets t).1.next_id) := by
  unfold tracker_update
  simp only
  obtain ⟨hle, hmem⟩ := spawn_fold_keys t dets.enum
    ((s.tracks.foldl (match_step p dets t) ([], [])).1, s.next_id,
      (s.tracks.foldl (match_step p dets t) ([], [])).2)
  refine ⟨hle, ?_⟩
  intro kv hkv
  have hkv2 := (List.mem_filter.mp hkv).1
  rcases hmem kv hkv2 with hin | ⟨hge, hlt⟩
  · rcases match_fold_keys p dets t s.tracks ([], []) kv hin with habs | hex
    · simp at habs
    · exact Or.inl hex
  · exact Or.inr ⟨hge, hlt⟩

/-- Helper: one update step preserves that an absent previously issued id
stays absent (with the key invariant carried along). -/
theorem tracker_step_absent (p : STParams) (s : STState) (dets : List Box) (t : ℚ)
    (tid : ℕ) (hk : KeysBelow s) (hlt : tid < s.next_id)
    (habs : ∀ tr, (tid, tr) ∉ s.tracks) :
    KeysBelow (tracker_update p s dets t).1
    ∧ tid < (tracker_update p s dets t).1.next_id
    ∧ ∀ tr, (tid, tr) ∉ (tracker_update p s dets t).1.tracks := by
  obtain ⟨hle, hmem⟩ := tracker_update_keys p s dets t
  refine ⟨?_, lt_of_lt_of_le hlt hle, ?_⟩
  · intro kv hkv
    rcases hmem kv hkv with ⟨kv₀, hm, he⟩ | ⟨_, hup⟩
    · calc kv.1 = kv₀.1 := he
        _ < s.next_id := hk kv₀ hm
        _ ≤ _ := hle
    · exact hup
  · intro tr htr
    rcases hmem (tid, tr) htr with ⟨kv₀, hm, he⟩ | ⟨hge, _⟩
    · have : (tid, kv₀.2) ∈ s.tracks := by
        have hkv : kv₀ = (tid, kv₀.2) := by
          rw [Prod.ext_iff]
          exact ⟨he.symm, rfl⟩
        rw [← hkv]
        exact hm
      exact habs kv₀.2 this
    · exact absurd hge (not_le.mpr hlt)

/-- Claim C7.  Tracks not updated for more than max_age seconds are deleted
during update; new tracks always draw fresh identifiers at or above the
supply counter; and once a previously issued identifier is absent from the
state, no later frame of any run ever carries it again — a reappearing entity
gets a new identifier, never a resurrected one. -/
theorem tracker_no_resurrection :
    (∀ (p : STParams) (s : STState) (dets : List Box) (t : ℚ),
      ∀ kv ∈ (tracker_update p s dets t).1.tracks, t - kv.2.last_seen ≤ p.max_age)
    ∧ (∀ (p : STParams) (s : STState) (dets : List Box) (t : ℚ),
      s.next_id ≤ (tracker_update p s dets t).1.next_id
        ∧ ∀ kv ∈ (tracker_update p s dets t).1.tracks,
            (∃ kv₀ ∈ s.tracks, kv.1 = kv₀.1)
              ∨ (s.next_id ≤ kv.1 ∧ kv.1 < (tracker_update p s dets t).1.next_id))
    ∧ (∀ (p : STParams) (s : STState) (frames : List (List Box × ℚ)) (tid : ℕ),
      KeysBelow s → tid < s.next_id → (∀ tr, (tid, tr) ∉ s.tracks) →
      ∀ tr, (tid, tr) ∉ (run_tracker p s frames).tracks) := by
  refine ⟨tracker_update_expiry, tracker_update_keys, ?_⟩
  intro p s frames
  induction frames generalizing s with
  | nil => intro tid _ _ habs tr htr; exact habs tr htr
  | cons f rest ih =>
    intro tid hk hlt habs tr htr
    obtain ⟨hk2, hlt2, habs2⟩ := tracker_step_absent p s f.1 f.2 tid hk hlt habs
    exact ih (tracker_update p s f.1 f.2).1 tid hk2 hlt2 habs2 tr htr

/-- A concrete track record used to close the witness statement. -/
def wTrack : STrack := { bbox := ⟨0, 0, 10, 10⟩, first_seen := 100, last_seen := 100,
                         history := [] }

/-- Claim C7, witness: starting from an empty tracker whose supply has
already issued id 0, a later frame containing a detection never reuses id 0. -/
theorem tracker_no_resurrection_witness :
    (0, wTrack) ∉ (run_tracker ⟨150, 30, 3/10⟩ ⟨[], 1⟩
      [([⟨0, 0, 10, 10⟩], 100)]).tracks := by
  refine tracker_no_resurrection.2.2 ⟨150, 30, 3/10⟩ ⟨[], 1⟩
    [([⟨0, 0, 10, 10⟩], 100)] 0 ?_ ?_ ?_ wTrack
  · intro kv hkv
    simp at hkv
  · norm_num
  · intro tr htr
    simp at htr

/-- Helper: invariants of the IoU maximisation fold (running best only grows;
it bounds every unassigned candidate up to the threshold; and the result is
either the start accumulator or a qualifying candidate). -/
theorem iou_fold_spec (θ : ℚ) (assigned : List ℕ) (tb : Box) :
    ∀ (l : List (ℕ × Box)) (acc : Option ℕ × ℚ),
      acc.2 ≤ (l.foldl (fun acc pr =>
          if pr.1 ∈ assigned then acc
          else
            let val := iou tb pr.2
            if θ ≤ val ∧ acc.2 < val then (some pr.1, val) else acc) acc).2
      ∧ (∀ pr ∈ l, pr.1 ∉ assigned →
          iou tb pr.2 < θ ∨ iou tb pr.2 ≤ (l.foldl (fun acc pr =>
            if pr.1 ∈ assigned then acc
            else
              let val := iou tb pr.2
              if θ ≤ val ∧ acc.2 < val then (some pr.1, val) else acc) acc).2)
      ∧ ((l.foldl (fun acc pr =>
            if pr.1 ∈ assigned then acc
            else
              let val := iou tb pr.2
              if θ ≤ val ∧ acc.2 < val then (some pr.1, val) else acc) acc) = acc
          ∨ ∃ j b, (j, b) ∈ l ∧ j ∉ assigned
              ∧ (l.foldl (fun acc pr =>
                  if pr.1 ∈ assigned then acc
                  else
                    let val := iou tb pr.2
                    if θ ≤ val ∧ acc.2 < val then (some pr.1, val) else acc) acc)
                = (some j, iou tb b)
              ∧ θ ≤ iou tb b) := by
  intro l
  induction l with
  | nil => intro acc; exact ⟨le_refl _, by simp, Or.inl rfl⟩
  | cons hd tl ih =>
    intro acc
    rw [List.foldl_cons]
    set acc1 := (if hd.1 ∈ assigned then acc
      else
        let val := iou tb hd.2
        if θ ≤ val ∧ acc.2 < val then (some hd.1, val) else acc) with hacc1
    obtain ⟨hmono, hbound, hprov⟩ := ih acc1
    have hstep : acc.2 ≤ acc1.2 ∧ (acc1 = acc
        ∨ (hd.1 ∉ assigned ∧ acc1 = (some hd.1, iou tb hd.2) ∧ θ ≤ iou tb hd.2)) := by
      rw [hacc1]
      dsimp only
      split_ifs with h1 h2
      · exact ⟨le_refl _, Or.inl rfl⟩
      · exact ⟨le_of_lt h2.2, Or.inr ⟨h1, rfl, h2.1⟩⟩
      · exact ⟨le_refl _, Or.inl rfl⟩
    refine ⟨le_trans hstep.1 hmono, ?_, ?_⟩
    · intro pr hpr hna
      rcases List.mem_cons.mp hpr with hhd | htl
      · subst hhd
        by_cases hq : θ ≤ iou tb pr.2 ∧ acc.2 < iou tb pr.2
        · right
          have : acc1.2 = iou tb pr.2 := by
            rw [hacc1, if_neg ?_, if_pos hq]
            simpa using hna
          rw [← this]
          exact hmono
        · rcases not_and_or.mp hq with hlow | hsmall
          · exact Or.inl (not_le.mp hlow)
          · right
            calc iou tb pr.2 ≤ acc.2 := not_lt.mp hsmall
              _ ≤ acc1.2 := hstep.1
              _ ≤ _ := hmono
      · exact hbound pr htl hna
    · rcases hprov with hsame | ⟨j, b, hm, hna, heq, hth⟩
      · rcases hstep.2 with h1 | ⟨hna, heq, hth⟩
        · exact Or.inl (hsame.trans h1)
        · exact Or.inr ⟨hd.1, hd.2, by simp, hna, hsame.trans heq, hth⟩
      · exact Or.inr ⟨j, b, by simp [hm], hna, heq, hth⟩

/-- Helper: invariants of the distance minimisation fold. -/
theorem dist_fold_spec (assigned : List ℕ) (c : ℚ × ℚ) :
    ∀ (l : List (ℕ × Box)) (acc : Option ℕ × ℚ),
      (l.foldl (fun acc pr =>
          if pr.1 ∈ assigned then acc
          else
            let dsq := distSq c (bbox_center pr.2)
            if dsq < acc.2 then (some pr.1, dsq) else acc) acc).2 ≤ acc.2
      ∧ (∀ pr ∈ l, pr.1 ∉ assigned →
          (l.foldl (fun acc pr =>
            if pr.1 ∈ assigned then acc
            else
              let dsq := distSq c (bbox_center pr.2)
              if dsq < acc.2 then (some pr.1, dsq) else acc) acc).2
            ≤ distSq c (bbox_center pr.2))
      ∧ ((l.foldl (fun acc pr =>
            if pr.1 ∈ assigned then acc
            else
              let dsq := distSq c (bbox_center pr.2)
              if dsq < acc.2 then (some pr.1, dsq) else acc) acc) = acc
          ∨ ∃ j b, (j, b) ∈ l ∧ j ∉ assigned
              ∧ (l.foldl (fun acc pr =>
                  if pr.1 ∈ assigned then acc
                  else
                    let dsq := distSq c (bbox_center pr.2)
                    if dsq < acc.2 then (some pr.1, dsq) else acc) acc)
                = (some j, distSq c (bbox_center b))
              ∧ distSq c (bbox_center b) < acc.2) := by
  intro l
  induction l with
  | nil => intro acc; exact ⟨le_refl _, by simp, Or.inl rfl⟩
  | cons hd tl ih =>
    intro acc
    rw [List.foldl_cons]
    set acc1 := (if hd.1 ∈ assigned then acc
      else
        let dsq := distSq c (bbox_center hd.2)
        if dsq < acc.2 then (some hd.1, dsq) else acc) with hacc1
    obtain ⟨hmono, hbound, hprov⟩ := ih acc1
    have hstep : acc1.2 ≤ acc.2 ∧ (acc1 = acc
        ∨ (hd.1 ∉ assigned ∧ acc1 = (some hd.1, distSq c (bbox_center hd.2))
            ∧ distSq c (bbox_center hd.2) < acc.2)) := by
      rw [hacc1]
      dsimp only
      split_ifs with h1 h2
      · exact ⟨le_refl _, Or.inl rfl⟩
      · exact ⟨le_of_lt h2, Or.inr ⟨h1, rfl, h2⟩⟩
      · exact ⟨le_refl _, Or.inl rfl⟩
    refine ⟨le_trans hmono hstep.1, ?_, ?_⟩
    · intro pr hpr hna
      rcases List.mem_cons.mp hpr with hhd | htl
      · subst hhd
        by_cases hq : distSq c (bbox_center pr.2) < acc.2
        · have : acc1.2 = distSq c (bbox_center pr.2) := by
            rw [hacc1, if_neg ?_, if_pos hq]
            simpa using hna
          rw [← this]
          exact hmono
        · calc (tl.foldl _ acc1).2 ≤ acc.2 := le_trans hmono hstep.1
            _ ≤ distSq c (bbox_center pr.2) := not_lt.mp hq
      · exact hbound pr htl hna
    · rcases hprov with hsame | ⟨j, b, hm, hna, heq, hlt⟩
      · rcases hstep.2 with h1 | ⟨hna, heq, hlt⟩
        · exact Or.inl (hsame.trans h1)
        · exact Or.inr ⟨hd.1, hd.2, by simp, hna, hsame.trans heq, hlt⟩
      · exact Or.inr ⟨j, b, by simp [hm], hna, heq, lt_of_lt_of_le hlt hstep.1⟩

/-- Claim C8.  For each existing track, if some unassigned detection reaches
the IoU threshold then the track is matched to an unassigned detection of
maximal IoU (never to a closer centroid of lower IoU); the centroid fallback
is consulted only when no unassigned detection reaches the threshold, and it
accepts only the nearest unassigned detection strictly inside max_distance,
returning nothing when none is that close. -/
theorem iou_before_centroid :
    ∀ (p : STParams) (dets : List Box) (assigned : List ℕ) (tb : Box),
      0 < p.iou_threshold →
      ((∃ pr ∈ dets.enum, pr.1 ∉ assigned ∧ p.iou_threshold ≤ iou tb pr.2) →
        ∃ j b, matchTrack p dets assigned tb = some j ∧ (j, b) ∈ dets.enum
          ∧ j ∉ assigned ∧ p.iou_threshold ≤ iou tb b
          ∧ ∀ pr ∈ dets.enum, pr.1 ∉ assigned → iou tb pr.2 ≤ iou tb b)
      ∧ ((∀ pr ∈ dets.enum, pr.1 ∉ assigned → iou tb pr.2 < p.iou_threshold) →
        matchTrack p dets assigned tb = distPass p.max_distance dets assigned tb)
      ∧ (∀ j, distPass p.max_distance dets assigned tb = some j →
        ∃ b, (j, b) ∈ dets.enum ∧ j ∉ assigned
          ∧ distSq (bbox_center tb) (bbox_center b) < p.max_distance ^ 2
          ∧ ∀ pr ∈ dets.enum, pr.1 ∉ assigned →
              distSq (bbox_center tb) (bbox_center b)
                ≤ distSq (bbox_center tb) (bbox_center pr.2))
      ∧ ((∀ pr ∈ dets.enum, pr.1 ∉ assigned →
            p.max_distance ^ 2 ≤ distSq (bbox_center tb) (bbox_center pr.2)) →
        distPass p.max_distance dets assigned tb = none) := by
  intro p dets assigned tb hθ
  obtain ⟨hmono, hbound, hprov⟩ :=
    iou_fold_spec p.iou_threshold assigned tb dets.enum ((none : Option ℕ), (0 : ℚ))
  obtain ⟨hdmono, hdbound, hdprov⟩ :=
    dist_fold_spec assigned (bbox_center tb) dets.enum
      ((none : Option ℕ), p.max_distance ^ 2)
  refine ⟨?_, ?_, ?_, ?_⟩
  · rintro ⟨pr, hm, hna, hq⟩
    rcases hprov with hsame | ⟨j, b, hmj, hnaj, heq, hth⟩
    · exfalso
      rcases hbound pr hm hna with hlow | hle
      · exact absurd hq (not_le.mpr hlow)
      · rw [hsame] at hle
        simp only at hle
        linarith
    · refine ⟨j, b, ?_, hmj, hnaj, hth, ?_⟩
      · unfold matchTrack iouPass
        rw [heq]
      · intro pr2 hm2 hna2
        rcases hbound pr2 hm2 hna2 with hlow | hle
        · linarith
        · rw [heq] at hle
          exact hle
  · intro hall
    have hnone : iouPass p.iou_threshold dets assigned tb = none := by
      unfold iouPass
      rcases hprov with hsame | ⟨j, b, hmj, hnaj, heq, hth⟩
      · rw [hsame]
      · exact absurd hth (not_le.mpr (hall (j, b) hmj hnaj))
    unfold matchTrack
    rw [hnone]
  · intro j hj
    unfold distPass at hj
    rcases hdprov with hsame | ⟨j2, b, hmj, hnaj, heq, hlt⟩
    · rw [hsame] at hj
      simp at hj
    · rw [heq] at hj
      simp only [Option.some.injEq] at hj
      subst hj
      refine ⟨b, hmj, hnaj, hlt, ?_⟩
      intro pr hm hna
      have := hdbound pr hm hna
      rw [heq] at this
      exact this
  · intro hall
    unfold distPass
    rcases hdprov with hsame | ⟨j2, b, hmj, hnaj, heq, hlt⟩
    · rw [hsame]
    · exact absurd hlt (not_lt.mpr (hall (j2, b) hmj hnaj))

/-- Claim C8, witness: against track box (0,0,10,10), detection 0 with box
(0,0,10,12) has IoU 5/6 and centroid distance 1, while detection 1 with box
(4,4,6,6) has the same centroid as the track (distance 0) but IoU 1/25; the
matcher still picks a maximal-IoU qualifying detection, never the closer
low-IoU one. -/
theorem iou_before_centroid_witness :
    ∃ j b, matchTrack ⟨150, 30, 3/10⟩ [⟨0, 0, 10, 12⟩, ⟨4, 4, 6, 6⟩] [] ⟨0, 0, 10, 10⟩
        = some j
      ∧ (j, b) ∈ ([⟨0, 0, 10, 12⟩, ⟨4, 4, 6, 6⟩] : List Box).enum
      ∧ (3/10 : ℚ) ≤ iou ⟨0, 0, 10, 10⟩ b
      ∧ ∀ pr ∈ ([⟨0, 0, 10, 12⟩, ⟨4, 4, 6, 6⟩] : List Box).enum,
          pr.1 ∉ ([] : List ℕ) → iou ⟨0, 0, 10, 10⟩ pr.2 ≤ iou ⟨0, 0, 10, 10⟩ b := by
  have hiou : (3/10 : ℚ) ≤ iou ⟨0, 0, 10, 10⟩ ⟨0, 0, 10, 12⟩ := by
    norm_num [iou]
  obtain ⟨j, b, h1, h2, h3, h4, h5⟩ :=
    (iou_before_centroid ⟨150, 30, 3/10⟩ [⟨0, 0, 10, 12⟩, ⟨4, 4, 6, 6⟩] [] ⟨0, 0, 10, 10⟩
      (by norm_num)).1 ⟨(0, ⟨0, 0, 10, 12⟩), by simp [List.enum], by simp, hiou⟩
  exact ⟨j, b, h1, h2, h4, h5⟩

/-- Helper: a successful cache scan splits the cache at the first matching
entry and refreshes exactly its timestamp. -/
theorem refreshFirstMatch_some (clip : List ℚ) (now : ℚ) :
    ∀ (cache cache2 : List StrangerEntry),
      refreshFirstMatch clip now cache = some cache2 →
      ∃ pre e post, cache = pre ++ e :: post
        ∧ (0.85 : ℚ) < dot clip e.embedding
        ∧ cache2 = pre ++ { e with timestamp := now } :: post := by
  intro cache
  induction cache with
  | nil => intro cache2 h; simp [refreshFirstMatch] at h
  | cons e rest ih =>
    intro cache2 h
    unfold refreshFirstMatch at h
    split_ifs at h with hd
    · simp only [Option.some.injEq] at h
      exact ⟨[], e, rest, by simp, hd, h.symm⟩
    · rcases Option.map_eq_some'.mp h with ⟨r, hr, heq⟩
      obtain ⟨pre, e2, post, hc, hdot, hr2⟩ := ih r hr
      exact ⟨e :: pre, e2, post, by simp [hc], hdot, by simp [← heq, hr2]⟩

/-- Helper: the cache scan succeeds exactly when some entry exceeds the 0.85
similarity bar. -/
theorem refreshFirstMatch_isSome (clip : List ℚ) (now : ℚ) :
    ∀ (cache : List StrangerEntry),
      (refreshFirstMatch clip now cache).isSome
        ↔ ∃ e ∈ cache, (0.85 : ℚ) < dot clip e.embedding := by
  intro cache
  induction cache with
  | nil => simp [refreshFirstMatch]
  | cons e rest ih =>
    unfold refreshFirstMatch
    split_ifs with hd
    · simp [hd]
    · simp only [Option.isSome_map']
      rw [ih]
      constructor
      · rintro ⟨e2, hm, h2⟩
        exact ⟨e2, by simp [hm], h2⟩
      · rintro ⟨e2, hm, h2⟩
        rcases List.mem_cons.mp hm with he | hr
        · exact absurd (he ▸ h2) hd
        · exact ⟨e2, hr, h2⟩

/-- Claim C6.  On an unauthorized verdict the fresh coarse embedding is
scanned against the stranger cache: a first entry with dot similarity above
0.85 marks the person a returning stranger, refreshes exactly that entry
timestamp (no insertion, cache length unchanged) and suppresses the
new-unauthorized-person alert; with no such entry the embedding is inserted
(followed by the one-hour prune); a person already flagged returning never
triggers the alert; and the authorization verdict itself never depends on the
cache — the cache never authorizes anyone. -/
theorem stranger_cache_discipline :
    (∀ (person : PersonState) (authr : AuthResult) (clip : List ℚ)
       (cache : List StrangerEntry) (now : ℚ) (cache2 : List StrangerEntry),
      authr.authorized = false →
      refreshFirstMatch clip now cache = some cache2 →
      (check_authorization_step person authr clip cache now).1.is_returning_stranger = true
        ∧ (check_authorization_step person authr clip cache now).2.1 = cache2
        ∧ cache2.length = cache.length
        ∧ (check_authorization_step person authr clip cache now).2.2 = false)
    ∧ (∀ (person : PersonState) (authr : AuthResult) (clip : List ℚ)
       (cache : List StrangerEntry) (now : ℚ),
      authr.authorized = false →
      refreshFirstMatch clip now cache = none →
      (check_authorization_step person authr clip cache now).2.1
        = (cache ++ [({ embedding := clip, timestamp := now } : StrangerEntry)]).filter
            (fun s2 => decide (now - s2.timestamp < 3600))
        ∧ (check_authorization_step person authr clip cache now).1.is_returning_stranger
            = person.is_returning_stranger)
    ∧ (∀ (clip : List ℚ) (now : ℚ) (cache : List StrangerEntry),
      (refreshFirstMatch clip now cache).isSome
        ↔ ∃ e ∈ cache, (0.85 : ℚ) < dot clip e.embedding)
    ∧ (∀ (person : PersonState) (authr : AuthResult) (clip : List ℚ)
       (cache : List StrangerEntry) (now : ℚ),
      person.is_returning_stranger = true →
      (check_authorization_step person authr clip cache now).2.2 = false)
    ∧ (∀ (person : PersonState) (authr : AuthResult) (clip : List ℚ)
       (cache : List StrangerEntry) (now : ℚ),
      (check_authorization_step person authr clip cache now).1.authorized
        = some authr.authorized) := by
  refine ⟨?_, ?_, refreshFirstMatch_isSome, ?_, ?_⟩
  · intro person authr clip cache now cache2 hu hm
    obtain ⟨pre, e, post, hc, hdot, hr⟩ := refreshFirstMatch_some clip now cache cache2 hm
    have hlen : cache2.length = cache.length := by
      rw [hc, hr]
      simp
    unfold check_authorization_step
    rw [hu]
    simp only [Bool.false_eq_true, if_false, hm]
    refine ⟨?_, ?_, hlen, ?_⟩ <;> simp
  · intro person authr clip cache now hu hm
    unfold check_authorization_step
    rw [hu]
    simp only [Bool.false_eq_true, if_false, hm]
    constructor <;> simp
  · intro person authr clip cache now hflag
    unfold check_authorization_step
    split_ifs with ha
    · rfl
    · simp [hflag]
  · intro person authr clip cache now
    unfold check_authorization_step
    split_ifs with ha
    · simp [ha]
    · simp [eq_false_of_ne_true ha]

/-- A cached stranger embedding pointing along the first axis. -/
def cexEntry : StrangerEntry := { embedding := [1, 0], timestamp := 10 }

/-- A scanning person state as initialised on first sighting. -/
def cexPerson : PersonState :=
  { authorized := none, is_returning_stranger := false, first_seen := 0,
    display_id := 1, name := "Scanning...", auth_score := 0, last_auth_check := 0 }

/-- An unauthorized verdict record. -/
def cexVerdict : AuthResult :=
  { authorized := false, score := 0.5, name := some "Unauthorized",
    role := none, department := none }

/-- Claim C6, witness: with one cached entry, a fresh embedding of similarity
0.9 marks the person returning, refreshes the entry to the current time,
keeps the cache length at one and raises no alert; a fresh embedding of
similarity 0.1 leaves the flag unset and inserts a second entry; the verdict
field never depends on the cache. -/
theorem stranger_cache_discipline_witness :
    (check_authorization_step cexPerson cexVerdict [9/10, 0] [cexEntry] 100).1.is_returning_stranger
        = true
    ∧ (check_authorization_step cexPerson cexVerdict [9/10, 0] [cexEntry] 100).2.1
        = [{ cexEntry with timestamp := 100 }]
    ∧ (check_authorization_step cexPerson cexVerdict [9/10, 0] [cexEntry] 100).2.2 = false
    ∧ (check_authorization_step cexPerson cexVerdict [1/10, 0] [cexEntry] 100).2.1
        = [cexEntry, { embedding := [1/10, 0], timestamp := 100 }]
    ∧ (check_authorization_step cexPerson cexVerdict [9/10, 0] [cexEntry] 100).1.authorized
        = some false := by
  have hmatch : refreshFirstMatch [9/10, 0] 100 [cexEntry]
      = some [{ cexEntry with timestamp := 100 }] := by
    norm_num [refreshFirstMatch, cexEntry, dot]
  have hmiss : refreshFirstMatch [1/10, 0] 100 [cexEntry] = none := by
    norm_num [refreshFirstMatch, cexEntry, dot]
  obtain ⟨h1, h2, h3, h4⟩ := stranger_cache_discipline.1 cexPerson cexVerdict [9/10, 0]
    [cexEntry] 100 [{ cexEntry with timestamp := 100 }] rfl hmatch
  obtain ⟨h5, h6⟩ := stranger_cache_discipline.2.1 cexPerson cexVerdict [1/10, 0]
    [cexEntry] 100 rfl hmiss
  refine ⟨h1, h2, h4, ?_, ?_⟩
  · rw [h5]
    norm_num [cexEntry]
  · exact stranger_cache_discipline.2.2.2.2 cexPerson cexVerdict [9/10, 0] [cexEntry] 100

end HospitalAI

